import Mathlib

/-!
Verification model of the TrueNAS WebSocket client (`src/lib/truenas.ts`).

The client multiplexes JSON-RPC-style calls over one WebSocket.  Its
mutable fields (`ws`, `requestCounter`, `pendingRequests`, `authenticated`,
`reconnectAttempts`, `intentionalDisconnect`) are embedded as a `Client`
record; the asynchronous callbacks (message handler, per-request timeout
timers, the fallback-auth grace timer, the close handler, the connect flow)
are embedded as an event-step function on a `Sys` state that also carries
ghost observation logs: frames written to the socket, frames received,
promise settlements, and scheduled reconnect delays.  Times are in
milliseconds, matching the source (30000 ms request timeout, 1000 ms
settle/grace delays, 2000 ms backoff base).
-/

namespace Truenas

/-- JSON-like values, as carried in `params`, `result` and similar fields. -/
inductive Value where
  | null
  | bool (b : Bool)
  | num (n : Int)
  | str (s : String)
  | arr (elems : List Value)
  | obj (fields : List (String × Value))

/-- The configuration fields of `TrueNASConfig` that the modelled behaviour
reads (`host` only for identification, `apiKey` for both auth paths). -/
structure TrueNASConfig where
  host : String
  apiKey : String

/-- `WebSocket.readyState` values. `opened` stands for `WebSocket.OPEN`. -/
inductive ReadyState where
  | connecting
  | opened
  | closing
  | closed
deriving DecidableEq

/-- Frames the client writes to the socket. `connectNeg` is the
`{msg: 'connect', version: '1', support: ['1']}` negotiation frame;
`methodCall` is `{id, msg: 'method', method, params}` (also the shape of the
primary auth frame); `authAlt` is the fallback frame
`{id, msg: 'auth', data: {api_key}}` sent by `tryAlternativeAuth`. -/
inductive OutFrame where
  | connectNeg
  | methodCall (id : String) (method : String) (params : List Value)
  | authAlt (id : String) (apiKey : String)

/-- A parsed inbound frame, keeping exactly the fields `handleMessage`
reads: `msg`, `id`, `result`, and `error.message`.  A field is `none` when
absent (or, for `id`, when not a string, since string keys of the pending
map can only be hit by string ids). -/
structure InFrame where
  msg : Option String
  id : Option String
  result : Option Value
  errorMessage : Option String

/-- Inbound socket data: either unparseable (JSON.parse throws, the catch
logs and drops it) or a parsed frame. -/
inductive Inbound where
  | malformed
  | frame (r : InFrame)

/-- One entry of the `pendingRequests` map.  The resolve/reject callbacks
are represented by the settlement log of `Sys`, keyed by `id`; `deadline`
records when the 30 s timeout timer registered by `call` fires. -/
structure PendingEntry where
  id : String
  deadline : Nat

/-- How a call's promise was settled: `resolved` by
`pending.resolve(response.result)` (the payload may be absent), or
`rejected` by `pending.reject(new Error(message))`. -/
inductive Outcome where
  | resolved (v : Option Value)
  | rejected (msg : String)

/-- Errors thrown synchronously by `call`. -/
inductive TNError where
  | notConnected

/-- The mutable fields of `TrueNASClient`. -/
structure Client where
  config : TrueNASConfig
  ws : Option ReadyState
  requestCounter : Nat
  pendingRequests : List PendingEntry
  authenticated : Bool
  reconnectAttempts : Nat
  intentionalDisconnect : Bool

/-- The client plus ghost observation logs: `sent` frames written to the
socket, `received` parsed inbound frames, `settled` promise settlements of
`call` promises, `scheduledReconnects` delays of reconnect timers created
by `handleReconnect`, `graceTimers` outstanding 1000 ms timers created by
`tryAlternativeAuth`, and `issued` the correlation ids `call` registered. -/
structure Sys where
  client : Client
  sent : List OutFrame
  received : List InFrame
  settled : List (String × Outcome)
  scheduledReconnects : List Nat
  graceTimers : Nat
  issued : List String

/-- `maxReconnectAttempts = 5`. -/
def maxReconnectAttempts : Nat := 5

/-- The per-request timeout of `call`: `setTimeout(..., 30000)`. -/
def requestTimeoutMs : Nat := 30000

/-- Decimal digit character, `'0' + d`. -/
def digitChar (d : Nat) : Char := Char.ofNat (48 + d)

/-- Fuel-driven big-endian decimal rendering of a natural number,
accumulator style (the structure of core's `Nat.toDigitsCore` at base 10). -/
def natReprCore : Nat → Nat → List Char → List Char
  | 0, _, ds => ds
  | fuel + 1, n, ds =>
    if n / 10 = 0 then digitChar (n % 10) :: ds
    else natReprCore fuel (n / 10) (digitChar (n % 10) :: ds)

/-- Decimal rendering of a natural number, as JavaScript template literals
render the nonnegative integers `Date.now()` and `requestCounter`. -/
def natRepr (n : Nat) : String := String.mk (natReprCore (n + 1) n [])

/-- Correlation id generation in `call`:
`` id = `${Date.now()}-${this.requestCounter++}` ``. -/
def mkId (now ctr : Nat) : String := natRepr now ++ "-" ++ natRepr ctr

/-- The ids currently keying a pending table. -/
def pids (l : List PendingEntry) : List String := l.map PendingEntry.id

/-- The ids currently keying the client's pending table. -/
def pendingIds (s : Sys) : List String := pids s.client.pendingRequests

/-- How many entries of a settlement log carry a given correlation id. -/
def countS (l : List (String × Outcome)) (i : String) : Nat :=
  (l.filter (fun p => decide (p.1 = i))).length

/-- How many settlements the log records for a given correlation id. -/
def countSettled (s : Sys) (i : String) : Nat := countS s.settled i

/-- `TrueNASClient.call` (lines 179-205): throw `NotConnected` unless the
socket handle exists and is open; otherwise generate the id from the
timestamp and the post-incremented counter, register the pending entry (its
timer firing `requestTimeoutMs` later), and send the method frame with
`params || []`. -/
def call (s : Sys) (now : Nat) (method : String) (params : Option (List Value)) :
    Sys × Except TNError String :=
  match s.client.ws with
  | none => (s, Except.error TNError.notConnected)
  | some rs =>
    if rs = ReadyState.opened then
      let i := mkId now s.client.requestCounter
      ({ s with
          client := { s.client with
            requestCounter := s.client.requestCounter + 1,
            pendingRequests :=
              s.client.pendingRequests ++ [{ id := i, deadline := now + requestTimeoutMs }] },
          sent := s.sent ++ [OutFrame.methodCall i method (params.getD [])],
          issued := s.issued ++ [i] },
        Except.ok i)
    else (s, Except.error TNError.notConnected)

/-- `TrueNASClient.tryAlternativeAuth` (lines 271-289): when the socket is
open, send the fallback auth frame (id `` `${Date.now()}-auth` ``, msg
`auth`, carrying the API key) and start a 1000 ms timer that will set
`authenticated = true`. -/
def tryAlternativeAuth (s : Sys) (now : Nat) : Sys :=
  match s.client.ws with
  | none => s
  | some rs =>
    if rs = ReadyState.opened then
      { s with
          sent := s.sent ++ [OutFrame.authAlt (natRepr now ++ "-auth") s.client.config.apiKey],
          graceTimers := s.graceTimers + 1 }
    else s

/-- The body of `handleMessage` once the id was found in the pending table
(lines 165-171): resolve on `result`, reject with
`error?.message || 'Unknown error'` on `error`, and in every found case
delete the entry. -/
def settleHit (s : Sys) (i : String) (r : InFrame) : Sys :=
  { s with
      settled :=
        if r.msg = some "result" then s.settled ++ [(i, Outcome.resolved r.result)]
        else if r.msg = some "error" then
          s.settled ++ [(i, Outcome.rejected (r.errorMessage.getD "Unknown error"))]
        else s.settled,
      client := { s.client with
        pendingRequests := s.client.pendingRequests.filter (fun e => decide (e.id ≠ i)) } }

/-- `TrueNASClient.handleMessage` (lines 145-176): drop malformed data;
return on `connected` and `pong`; route `failed` to `tryAlternativeAuth`;
otherwise look the id up in the pending table and, when found, settle via
`settleHit`; unknown ids are dropped silently. -/
def handleMessage (s : Sys) (now : Nat) (d : Inbound) : Sys :=
  match d with
  | Inbound.malformed => s
  | Inbound.frame r =>
    if r.msg = some "connected" then s
    else if r.msg = some "failed" then tryAlternativeAuth s now
    else if r.msg = some "pong" then s
    else
      match r.id with
      | none => s
      | some i =>
        match s.client.pendingRequests.find? (fun e => decide (e.id = i)) with
        | none => s
        | some _ => settleHit s i r

/-- The timeout timer body registered by `call` (lines 198-203): if the id
is still pending, delete it and reject with `Request timeout`; otherwise do
nothing. -/
def fireTimeout (s : Sys) (i : String) : Sys :=
  if (s.client.pendingRequests.find? (fun e => decide (e.id = i))).isSome then
    { s with
        client := { s.client with
          pendingRequests := s.client.pendingRequests.filter (fun e => decide (e.id ≠ i)) },
        settled := s.settled ++ [(i, Outcome.rejected "Request timeout")] }
  else s

/-- The grace timer body registered by `tryAlternativeAuth`: 1000 ms after
the fallback frame was sent, set `authenticated = true`. -/
def fireGrace (s : Sys) : Sys :=
  if s.graceTimers = 0 then s
  else
    { s with
        graceTimers := s.graceTimers - 1,
        client := { s.client with authenticated := true } }

/-- `TrueNASClient.handleReconnect` (lines 127-142): bail out after an
intentional disconnect; otherwise, while below `maxReconnectAttempts`,
increment the counter and schedule a reconnect after
`2000 * reconnectAttempts` ms. -/
def handleReconnect (s : Sys) : Sys :=
  if s.client.intentionalDisconnect then s
  else if s.client.reconnectAttempts < maxReconnectAttempts then
    { s with
        client := { s.client with reconnectAttempts := s.client.reconnectAttempts + 1 },
        scheduledReconnects :=
          s.scheduledReconnects ++ [2000 * (s.client.reconnectAttempts + 1)] }
  else s

/-- `TrueNASClient.disconnect` (lines 361-369): with a live handle, set the
intentional flag, close and null the socket, clear `authenticated`; with no
handle it is a no-op.  Note it never touches `pendingRequests`. -/
def disconnect (s : Sys) : Sys :=
  match s.client.ws with
  | none => s
  | some _ =>
    { s with
        client := { s.client with
          intentionalDisconnect := true,
          ws := none,
          authenticated := false } }

/-- `TrueNASClient.isConnected` (lines 372-374):
`ws !== null && ws.readyState === OPEN && authenticated`. -/
def isConnected (s : Sys) : Bool :=
  match s.client.ws with
  | none => false
  | some rs => decide (rs = ReadyState.opened) && s.client.authenticated

/-- Abstract occurrences in the client's event loop.  `issueCall` is a
caller entering `call`; `recv` is the socket message handler firing;
`timeoutFire` is a request timeout timer firing; `graceElapsed` is the
fallback-auth grace timer firing; `socketClose` is the close handler
(lines 118-122); `connectStart` is `connect()` entering (line 69, clearing
the intentional flag and allocating the socket); `socketOpen` is the open
handler reaching `readyState OPEN` and sending the negotiation frame;
`authSucceeded` is `authenticate()` resolving followed by line 97
(`reconnectAttempts = 0`). -/
inductive Event where
  | issueCall (now : Nat) (method : String) (params : Option (List Value))
  | recv (now : Nat) (d : Inbound)
  | timeoutFire (i : String)
  | graceElapsed
  | socketClose
  | connectStart
  | socketOpen
  | authSucceeded
  | disconnectCall

/-- Record a parsed inbound frame in the ghost receive log. -/
def recordInbound (s : Sys) (d : Inbound) : Sys :=
  match d with
  | Inbound.malformed => s
  | Inbound.frame r => { s with received := s.received ++ [r] }

/-- One step of the event loop, dispatching each event to the function
embedded from the source. -/
def stepEvent (s : Sys) (e : Event) : Sys :=
  match e with
  | Event.issueCall now method params => (call s now method params).1
  | Event.recv now d => handleMessage (recordInbound s d) now d
  | Event.timeoutFire i => fireTimeout s i
  | Event.graceElapsed => fireGrace s
  | Event.socketClose =>
      handleReconnect { s with client := { s.client with authenticated := false } }
  | Event.connectStart =>
      { s with client := { s.client with
          intentionalDisconnect := false,
          ws := some ReadyState.connecting } }
  | Event.socketOpen =>
      match s.client.ws with
      | none => s
      | some _ =>
        { s with
            client := { s.client with ws := some ReadyState.opened },
            sent := s.sent ++ [OutFrame.connectNeg] }
  | Event.authSucceeded =>
      { s with client := { s.client with authenticated := true, reconnectAttempts := 0 } }
  | Event.disconnectCall => disconnect s

/-- Run a sequence of events. -/
def runTrace (s : Sys) (tr : List Event) : Sys := tr.foldl stepEvent s

/-- The state of a freshly constructed `TrueNASClient`. -/
def initClient (cfg : TrueNASConfig) : Client :=
  { config := cfg, ws := none, requestCounter := 0, pendingRequests := [],
    authenticated := false, reconnectAttempts := 0, intentionalDisconnect := false }

/-- A freshly constructed client with empty observation logs. -/
def initSys (cfg : TrueNASConfig) : Sys :=
  { client := initClient cfg, sent := [], received := [], settled := [],
    scheduledReconnects := [], graceTimers := 0, issued := [] }

/-! ### Correlation-id rendering lemmas -/

theorem natReprCore_acc (fuel : Nat) : ∀ n ds,
    natReprCore fuel n ds = natReprCore fuel n [] ++ ds := by
  induction fuel with
  | zero => intro n ds; simp [natReprCore]
  | succ fuel ih =>
    intro n ds
    by_cases h : n / 10 = 0
    · simp [natReprCore, h]
    · simp only [natReprCore, h, if_false]
      rw [ih (n / 10) (digitChar (n % 10) :: ds), ih (n / 10) [digitChar (n % 10)]]
      simp

theorem natReprCore_digits (fuel : Nat) : ∀ n c, c ∈ natReprCore fuel n [] →
    ∃ d, d < 10 ∧ c = digitChar d := by
  induction fuel with
  | zero => intro n c hc; simp [natReprCore] at hc
  | succ fuel ih =>
    intro n c hc
    by_cases h : n / 10 = 0
    · simp [natReprCore, h] at hc
      exact ⟨n % 10, Nat.mod_lt n (by norm_num), hc⟩
    · simp only [natReprCore, h, if_false] at hc
      rw [natReprCore_acc] at hc
      rcases List.mem_append.mp hc with h1 | h2
      · exact ih (n / 10) c h1
      · simp at h2
        exact ⟨n % 10, Nat.mod_lt n (by norm_num), h2⟩

theorem digitChar_toNat (d : Nat) (hd : d < 10) : (digitChar d).toNat = 48 + d := by
  interval_cases d <;> decide

theorem digitChar_ne_dash (d : Nat) (hd : d < 10) : digitChar d ≠ Char.ofNat 45 := by
  interval_cases d <;> decide

theorem natRepr_no_dash (n : Nat) : Char.ofNat 45 ∉ (natRepr n).data := by
  intro hmem
  obtain ⟨d, hd, hc⟩ := natReprCore_digits (n + 1) n (Char.ofNat 45) hmem
  exact digitChar_ne_dash d hd hc.symm

/-- Decimal value of a big-endian digit string. -/
def charsVal (l : List Char) : Nat := l.foldl (fun a c => 10 * a + (c.toNat - 48)) 0

theorem charsVal_append_single (l : List Char) (c : Char) :
    charsVal (l ++ [c]) = 10 * charsVal l + (c.toNat - 48) := by
  simp [charsVal, List.foldl_append]

theorem natReprCore_val (fuel : Nat) : ∀ n, n < 10 ^ fuel →
    charsVal (natReprCore fuel n []) = n := by
  induction fuel with
  | zero => intro n hn; interval_cases n; simp [natReprCore, charsVal]
  | succ fuel ih =>
    intro n hn
    by_cases h : n / 10 = 0
    · have hlt : n < 10 := by omega
      simp [natReprCore, h, charsVal, digitChar_toNat (n % 10) (Nat.mod_lt n (by norm_num))]
      omega
    · simp only [natReprCore, h, if_false]
      rw [natReprCore_acc, charsVal_append_single,
        digitChar_toNat (n % 10) (Nat.mod_lt n (by norm_num))]
      have hdiv : n / 10 < 10 ^ fuel := by
        rw [Nat.div_lt_iff_lt_mul (by norm_num : 0 < 10)]
        calc n < 10 ^ (fuel + 1) := hn
        _ = 10 ^ fuel * 10 := by ring
      rw [ih (n / 10) hdiv]
      omega

theorem self_lt_ten_pow_succ (n : Nat) : n < 10 ^ (n + 1) := by
  calc n < 2 ^ n := Nat.lt_two_pow n
  _ ≤ 10 ^ n := Nat.pow_le_pow_left (by norm_num) n
  _ ≤ 10 ^ (n + 1) := Nat.pow_le_pow_right (by norm_num) (Nat.le_succ n)

theorem natRepr_val (n : Nat) : charsVal (natRepr n).data = n :=
  natReprCore_val (n + 1) n (self_lt_ten_pow_succ n)

theorem natRepr_injective (a b : Nat) (h : natRepr a = natRepr b) : a = b := by
  have := congrArg (fun s => charsVal s.data) h
  simpa [natRepr_val] using this

theorem sep_split_right (sep : Char) : ∀ (l1 l2 r1 r2 : List Char),
    sep ∉ l1 → sep ∉ l2 → l1 ++ sep :: r1 = l2 ++ sep :: r2 → r1 = r2 := by
  intro l1
  induction l1 with
  | nil =>
    intro l2 r1 r2 _ h2 heq
    cases l2 with
    | nil => simpa using heq
    | cons c cs =>
      simp at heq
      exact absurd (heq.1 ▸ List.mem_cons_self c cs) h2
  | cons c cs ih =>
    intro l2 r1 r2 h1 h2 heq
    cases l2 with
    | nil =>
      simp at heq h1
      exact absurd heq.1.symm h1.1
    | cons d ds =>
      simp at heq
      exact ih ds r1 r2 (fun hm => h1 (List.mem_cons_of_mem c hm))
        (fun hm => h2 (List.mem_cons_of_mem d hm)) heq.2

theorem mkId_ctr_inj (t1 c1 t2 c2 : Nat) (h : mkId t1 c1 = mkId t2 c2) : c1 = c2 := by
  have hdata : (natRepr t1).data ++ Char.ofNat 45 :: (natRepr c1).data =
      (natRepr t2).data ++ Char.ofNat 45 :: (natRepr c2).data := by
    have := congrArg String.data h
    simpa [mkId, String.data_append] using this
  have hr : (natRepr c1).data = (natRepr c2).data :=
    sep_split_right (Char.ofNat 45) (natRepr t1).data (natRepr t2).data
      (natRepr c1).data (natRepr c2).data (natRepr_no_dash t1) (natRepr_no_dash t2) hdata
  exact natRepr_injective c1 c2 (String.ext hr)

/-! ### Basic facts about the pending table and the settlement log -/

theorem mem_pids (l : List PendingEntry) (i : String) :
    i ∈ pids l ↔ ∃ e ∈ l, e.id = i := by
  simp [pids]

theorem pids_append (l1 l2 : List PendingEntry) :
    pids (l1 ++ l2) = pids l1 ++ pids l2 := by
  simp [pids]

theorem mem_pids_filter_ne (l : List PendingEntry) (i j : String) :
    j ∈ pids (l.filter (fun e => decide (e.id ≠ i))) ↔ j ∈ pids l ∧ j ≠ i := by
  constructor
  · intro h
    obtain ⟨e, he, hid⟩ := (mem_pids _ _).mp h
    rcases List.mem_filter.mp he with ⟨hel, hne⟩
    simp at hne
    exact ⟨(mem_pids _ _).mpr ⟨e, hel, hid⟩, hid ▸ hne⟩
  · intro ⟨h, hne⟩
    obtain ⟨e, he, hid⟩ := (mem_pids _ _).mp h
    exact (mem_pids _ _).mpr ⟨e, List.mem_filter.mpr ⟨he, by simp [hid, hne]⟩, hid⟩

theorem pids_filter_nodup (l : List PendingEntry) (i : String)
    (h : (pids l).Nodup) : (pids (l.filter (fun e => decide (e.id ≠ i)))).Nodup := by
  have hsub : (l.filter (fun e => decide (e.id ≠ i))).Sublist l := List.filter_sublist l
  exact (hsub.map PendingEntry.id).nodup h

theorem find?_eq_some_mem_pids (l : List PendingEntry) (i : String) (e : PendingEntry)
    (h : l.find? (fun e => decide (e.id = i)) = some e) : e ∈ l ∧ e.id = i := by
  refine ⟨List.mem_of_find?_eq_some h, ?_⟩
  have := List.find?_some h
  simpa using this

theorem countS_append (l : List (String × Outcome)) (p : String × Outcome) (i : String) :
    countS (l ++ [p]) i = countS l i + (if p.1 = i then 1 else 0) := by
  by_cases h : p.1 = i <;> simp [countS, List.filter_append, h]

/-! ### Benign events and invariants -/

/-- Inbound data whose `msg` discriminant is one the client knows.  An
unknown `msg` paired with a pending id would delete the entry without
settling it; the exactly-once property quantifies over result/error frames
(plus the id-less control frames), which is this predicate. -/
def InboundBenign : Inbound → Prop
  | Inbound.malformed => True
  | Inbound.frame r =>
      r.msg = some "connected" ∨ r.msg = some "failed" ∨ r.msg = some "pong" ∨
      r.msg = some "result" ∨ r.msg = some "error"

/-- Events whose inbound frames, if any, are benign. -/
def EventBenign : Event → Prop
  | Event.recv _ d => InboundBenign d
  | _ => True

/-- A settlement is justified by the receive log: a resolution carries the
payload of a received result frame with the same correlation id, and a
rejection is either the timeout rejection or carries the message of a
received error frame with the same correlation id. -/
def Correlates (received : List InFrame) (i : String) : Outcome → Prop
  | Outcome.resolved v =>
      ∃ r ∈ received, r.id = some i ∧ r.msg = some "result" ∧ r.result = v
  | Outcome.rejected m =>
      m = "Request timeout" ∨
      ∃ r ∈ received, r.id = some i ∧ r.msg = some "error" ∧
        r.errorMessage.getD "Unknown error" = m

/-- Structural invariant preserved by every event: issued ids are pairwise
distinct, each embeds a counter value below the current `requestCounter`,
and the pending table's keys are distinct issued ids. -/
structure InvCore (s : Sys) : Prop where
  issued_nodup : s.issued.Nodup
  issued_ctr : ∀ i ∈ s.issued, ∃ ts c, c < s.client.requestCounter ∧ i = mkId ts c
  pending_sub : ∀ i ∈ pendingIds s, i ∈ s.issued
  pending_nodup : (pendingIds s).Nodup

/-- Settlement invariant preserved by benign events: an issued id has
exactly one settlement once it has left the pending table and none while it
is still pending (or was never issued), and every settlement is justified
by the receive log. -/
structure InvGood (s : Sys) : Prop where
  settle_count : ∀ i, countSettled s i =
    if i ∈ s.issued ∧ i ∉ pendingIds s then 1 else 0
  correlated : ∀ p ∈ s.settled, Correlates s.received p.1 p.2

theorem fresh_not_issued (s : Sys) (hc : InvCore s) (now : Nat) :
    mkId now s.client.requestCounter ∉ s.issued := by
  intro hmem
  obtain ⟨ts, c, hlt, heq⟩ := hc.issued_ctr _ hmem
  have := mkId_ctr_inj now s.client.requestCounter ts c heq
  omega

theorem fresh_not_pending (s : Sys) (hc : InvCore s) (now : Nat) :
    mkId now s.client.requestCounter ∉ pendingIds s := by
  intro hmem
  exact fresh_not_issued s hc now (hc.pending_sub _ hmem)


/-! ### Characterization lemmas for the step functions -/

theorem call_open (s : Sys) (now : Nat) (method : String) (params : Option (List Value))
    (hws : s.client.ws = some ReadyState.opened) :
    call s now method params =
      ({ s with
          client := { s.client with
            requestCounter := s.client.requestCounter + 1,
            pendingRequests := s.client.pendingRequests ++
              [{ id := mkId now s.client.requestCounter, deadline := now + requestTimeoutMs }] },
          sent := s.sent ++
            [OutFrame.methodCall (mkId now s.client.requestCounter) method (params.getD [])],
          issued := s.issued ++ [mkId now s.client.requestCounter] },
        Except.ok (mkId now s.client.requestCounter)) := by
  simp [call, hws]

theorem call_not_open (s : Sys) (now : Nat) (method : String) (params : Option (List Value))
    (h : ∀ rs, s.client.ws = some rs → rs ≠ ReadyState.opened) :
    call s now method params = (s, Except.error TNError.notConnected) := by
  cases hws : s.client.ws with
  | none => simp [call, hws]
  | some rs => simp [call, hws, h rs hws]

theorem handleMessage_connected (s : Sys) (now : Nat) (r : InFrame)
    (h : r.msg = some "connected") : handleMessage s now (Inbound.frame r) = s := by
  simp [handleMessage, h]

theorem handleMessage_failed (s : Sys) (now : Nat) (r : InFrame)
    (h : r.msg = some "failed") :
    handleMessage s now (Inbound.frame r) = tryAlternativeAuth s now := by
  simp [handleMessage, h]

theorem handleMessage_pong (s : Sys) (now : Nat) (r : InFrame)
    (h : r.msg = some "pong") : handleMessage s now (Inbound.frame r) = s := by
  simp [handleMessage, h]

theorem handleMessage_no_id (s : Sys) (now : Nat) (r : InFrame)
    (h1 : r.msg ≠ some "connected") (h2 : r.msg ≠ some "failed") (h3 : r.msg ≠ some "pong")
    (hid : r.id = none) : handleMessage s now (Inbound.frame r) = s := by
  simp [handleMessage, h1, h2, h3, hid]

theorem handleMessage_miss (s : Sys) (now : Nat) (r : InFrame) (i : String)
    (h1 : r.msg ≠ some "connected") (h2 : r.msg ≠ some "failed") (h3 : r.msg ≠ some "pong")
    (hid : r.id = some i)
    (hfind : s.client.pendingRequests.find? (fun e => decide (e.id = i)) = none) :
    handleMessage s now (Inbound.frame r) = s := by
  simp [handleMessage, h1, h2, h3, hid, hfind]

theorem handleMessage_hit (s : Sys) (now : Nat) (r : InFrame) (i : String) (e : PendingEntry)
    (h1 : r.msg ≠ some "connected") (h2 : r.msg ≠ some "failed") (h3 : r.msg ≠ some "pong")
    (hid : r.id = some i)
    (hfind : s.client.pendingRequests.find? (fun e => decide (e.id = i)) = some e) :
    handleMessage s now (Inbound.frame r) = settleHit s i r := by
  simp [handleMessage, h1, h2, h3, hid, hfind]

theorem tryAlt_open (s : Sys) (now : Nat) (hws : s.client.ws = some ReadyState.opened) :
    tryAlternativeAuth s now =
      { s with
          sent := s.sent ++ [OutFrame.authAlt (natRepr now ++ "-auth") s.client.config.apiKey],
          graceTimers := s.graceTimers + 1 } := by
  simp [tryAlternativeAuth, hws]

theorem tryAlt_not_open (s : Sys) (now : Nat)
    (h : ∀ rs, s.client.ws = some rs → rs ≠ ReadyState.opened) :
    tryAlternativeAuth s now = s := by
  cases hws : s.client.ws with
  | none => simp [tryAlternativeAuth, hws]
  | some rs => simp [tryAlternativeAuth, hws, h rs hws]

/-! ### Invariant preservation -/

theorem invCore_of_sublist (s' s : Sys) (h : InvCore s)
    (hp : s'.client.pendingRequests.Sublist s.client.pendingRequests)
    (hr : s'.client.requestCounter = s.client.requestCounter)
    (hi : s'.issued = s.issued) : InvCore s' := by
  constructor
  · rw [hi]; exact h.issued_nodup
  · rw [hi, hr]; exact h.issued_ctr
  · intro i him
    rw [hi]
    exact h.pending_sub i ((hp.map PendingEntry.id).subset him)
  · exact (hp.map PendingEntry.id).nodup h.pending_nodup

theorem invCore_call (s : Sys) (h : InvCore s) (now : Nat) (method : String)
    (params : Option (List Value)) : InvCore (call s now method params).1 := by
  by_cases hws : s.client.ws = some ReadyState.opened
  · rw [call_open s now method params hws]
    have hfresh := fresh_not_issued s h now
    have hfreshp := fresh_not_pending s h now
    constructor
    · simp only [List.nodup_append, List.nodup_singleton, true_and]
      refine ⟨h.issued_nodup, ?_⟩
      intro i him
      simp only [List.mem_singleton]
      intro heq
      exact hfresh (heq ▸ him)
    · intro i him
      rcases List.mem_append.mp him with him | him
      · obtain ⟨ts, c, hlt, heq⟩ := h.issued_ctr i him
        exact ⟨ts, c, Nat.lt_succ_of_lt hlt, heq⟩
      · exact ⟨now, s.client.requestCounter, Nat.lt_succ_self _,
          (List.mem_singleton.mp him)⟩
    · intro i him
      simp only [pendingIds, pids_append] at him
      rcases List.mem_append.mp him with him | him
      · exact List.mem_append.mpr (Or.inl (h.pending_sub i him))
      · simp only [pids, List.map_cons, List.map_nil, List.mem_singleton] at him
        exact List.mem_append.mpr (Or.inr (by simp [him]))
    · simp only [pendingIds, pids_append]
      rw [List.nodup_append]
      refine ⟨h.pending_nodup, by simp [pids], ?_⟩
      intro i him
      simp only [pids, List.map_cons, List.map_nil, List.mem_singleton]
      intro heq
      exact hfreshp (heq ▸ him)
  · rw [call_not_open s now method params (fun rs hrs => by
      intro hrseq
      exact hws (hrseq ▸ hrs))]
    exact h

theorem invCore_tryAlt (s : Sys) (h : InvCore s) (now : Nat) :
    InvCore (tryAlternativeAuth s now) := by
  by_cases hws : s.client.ws = some ReadyState.opened
  · rw [tryAlt_open s now hws]
    exact invCore_of_sublist _ s h (List.Sublist.refl _) rfl rfl
  · rw [tryAlt_not_open s now (fun rs hrs => by
      intro hrseq
      exact hws (hrseq ▸ hrs))]
    exact h

theorem invCore_settleHit (s : Sys) (h : InvCore s) (i : String) (r : InFrame) :
    InvCore (settleHit s i r) := by
  exact invCore_of_sublist _ s h (List.filter_sublist _) rfl rfl

theorem invCore_handleMessage (s : Sys) (h : InvCore s) (now : Nat) (d : Inbound) :
    InvCore (handleMessage s now d) := by
  cases d with
  | malformed => exact h
  | frame r =>
    by_cases h1 : r.msg = some "connected"
    · rw [handleMessage_connected s now r h1]; exact h
    · by_cases h2 : r.msg = some "failed"
      · rw [handleMessage_failed s now r h2]; exact invCore_tryAlt s h now
      · by_cases h3 : r.msg = some "pong"
        · rw [handleMessage_pong s now r h3]; exact h
        · cases hid : r.id with
          | none => rw [handleMessage_no_id s now r h1 h2 h3 hid]; exact h
          | some i =>
            cases hfind : s.client.pendingRequests.find? (fun e => decide (e.id = i)) with
            | none => rw [handleMessage_miss s now r i h1 h2 h3 hid hfind]; exact h
            | some e =>
              rw [handleMessage_hit s now r i e h1 h2 h3 hid hfind]
              exact invCore_settleHit s h i r

theorem invCore_fireTimeout (s : Sys) (h : InvCore s) (i : String) :
    InvCore (fireTimeout s i) := by
  unfold fireTimeout
  split_ifs with h1
  · exact invCore_of_sublist _ s h (List.filter_sublist _) rfl rfl
  · exact h

theorem invCore_recordInbound (s : Sys) (h : InvCore s) (d : Inbound) :
    InvCore (recordInbound s d) := by
  cases d with
  | malformed => exact h
  | frame r => exact invCore_of_sublist _ s h (List.Sublist.refl _) rfl rfl

theorem invCore_step (s : Sys) (h : InvCore s) (e : Event) : InvCore (stepEvent s e) := by
  cases e with
  | issueCall now method params => exact invCore_call s h now method params
  | recv now d => exact invCore_handleMessage _ (invCore_recordInbound s h d) now d
  | timeoutFire i => exact invCore_fireTimeout s h i
  | graceElapsed =>
    show InvCore (fireGrace s)
    unfold fireGrace
    split_ifs with h1
    · exact h
    · exact invCore_of_sublist _ s h (List.Sublist.refl _) rfl rfl
  | socketClose =>
    show InvCore (handleReconnect _)
    unfold handleReconnect
    split_ifs with h1 h2
    · exact invCore_of_sublist _ s h (List.Sublist.refl _) rfl rfl
    · exact invCore_of_sublist _ s h (List.Sublist.refl _) rfl rfl
    · exact invCore_of_sublist _ s h (List.Sublist.refl _) rfl rfl
  | connectStart =>
    exact invCore_of_sublist (stepEvent s Event.connectStart) s h (List.Sublist.refl _) rfl rfl
  | socketOpen =>
    show InvCore (match s.client.ws with
      | none => s
      | some _ =>
        { s with
            client := { s.client with ws := some ReadyState.opened },
            sent := s.sent ++ [OutFrame.connectNeg] })
    cases s.client.ws with
    | none => exact h
    | some rs => exact invCore_of_sublist _ s h (List.Sublist.refl _) rfl rfl
  | authSucceeded =>
    exact invCore_of_sublist (stepEvent s Event.authSucceeded) s h (List.Sublist.refl _) rfl rfl
  | disconnectCall =>
    show InvCore (disconnect s)
    unfold disconnect
    cases s.client.ws with
    | none => exact h
    | some rs => exact invCore_of_sublist _ s h (List.Sublist.refl _) rfl rfl

theorem correlates_mono (rec rec2 : List InFrame) (i : String) (o : Outcome)
    (hsub : ∀ r ∈ rec, r ∈ rec2) (h : Correlates rec i o) : Correlates rec2 i o := by
  cases o with
  | resolved v =>
    obtain ⟨r, hr, h2⟩ := h
    exact ⟨r, hsub r hr, h2⟩
  | rejected m =>
    rcases h with h | ⟨r, hr, h2⟩
    · exact Or.inl h
    · exact Or.inr ⟨r, hsub r hr, h2⟩

theorem invGood_of_eq (s' s : Sys) (h : InvGood s)
    (hi : s'.issued = s.issued)
    (hp : s'.client.pendingRequests = s.client.pendingRequests)
    (hs : s'.settled = s.settled)
    (hrec : ∀ r ∈ s.received, r ∈ s'.received) : InvGood s' := by
  constructor
  · intro i
    have hpend : pendingIds s' = pendingIds s := by
      simp only [pendingIds, hp]
    rw [hi, hpend]
    show countS s'.settled i = _
    rw [hs]
    exact h.settle_count i
  · intro p hmem
    rw [hs] at hmem
    exact correlates_mono s.received s'.received p.1 p.2 hrec (h.correlated p hmem)

theorem invGood_call (s : Sys) (hc : InvCore s) (hg : InvGood s) (now : Nat)
    (method : String) (params : Option (List Value)) :
    InvGood (call s now method params).1 := by
  by_cases hws : s.client.ws = some ReadyState.opened
  · rw [call_open s now method params hws]
    have hfresh := fresh_not_issued s hc now
    constructor
    · intro j
      show countS s.settled j =
        if j ∈ s.issued ++ [mkId now s.client.requestCounter] ∧
            j ∉ pids (s.client.pendingRequests ++
              [{ id := mkId now s.client.requestCounter,
                 deadline := now + requestTimeoutMs }]) then 1
        else 0
      by_cases hj : j = mkId now s.client.requestCounter
      · subst hj
        have h0 : countS s.settled (mkId now s.client.requestCounter) = 0 := by
          have h1 := hg.settle_count (mkId now s.client.requestCounter)
          rw [if_neg (by
            intro hand
            exact hfresh hand.1)] at h1
          exact h1
        rw [h0]
        rw [if_neg]
        intro hand
        refine hand.2 ?_
        rw [pids_append]
        refine List.mem_append.mpr (Or.inr ?_)
        simp [pids]
      · have h0 : countS s.settled j =
            if j ∈ s.issued ∧ j ∉ pendingIds s then 1 else 0 := hg.settle_count j
        rw [h0]
        have hiss : (j ∈ s.issued ++ [mkId now s.client.requestCounter]) ↔ j ∈ s.issued := by
          simp [hj]
        have hpend : (j ∈ pids (s.client.pendingRequests ++
            [{ id := mkId now s.client.requestCounter, deadline := now + requestTimeoutMs }])) ↔
            j ∈ pids s.client.pendingRequests := by
          rw [pids_append, List.mem_append]
          simp only [pids, List.map_cons, List.map_nil, List.mem_singleton]
          constructor
          · intro hor
            rcases hor with hm | hm
            · exact hm
            · exact absurd hm hj
          · intro hm
            exact Or.inl hm
        rw [if_congr (and_congr hiss (not_congr hpend)) rfl rfl]
        rfl
    · intro p hmem
      exact hg.correlated p hmem
  · rw [call_not_open s now method params (fun rs hrs => by
      intro hrseq
      exact hws (hrseq ▸ hrs))]
    exact hg

theorem settled_append_counting (s : Sys) (hc : InvCore s) (hg : InvGood s) (i : String)
    (hmem : i ∈ pendingIds s) (o : Outcome) (j : String) :
    countS (s.settled ++ [(i, o)]) j =
      if j ∈ s.issued ∧
          j ∉ pids (s.client.pendingRequests.filter (fun e => decide (e.id ≠ i))) then 1
      else 0 := by
  rw [countS_append]
  by_cases hj : j = i
  · subst hj
    have h0 : countS s.settled j = 0 := by
      have h1 := hg.settle_count j
      rw [if_neg (by
        intro hand
        exact hand.2 hmem)] at h1
      exact h1
    have hpos : j ∈ s.issued ∧
        j ∉ pids (List.filter (fun e => decide (e.id ≠ j)) s.client.pendingRequests) := by
      refine ⟨hc.pending_sub j hmem, ?_⟩
      intro hmf
      exact ((mem_pids_filter_ne _ _ _).mp hmf).2 rfl
    rw [h0, if_pos hpos]
    simp
  · have h0 : countS s.settled j =
        if j ∈ s.issued ∧ j ∉ pendingIds s then 1 else 0 := hg.settle_count j
    have hne2 : ¬ ((i, o).1 = j) := fun heq : i = j => hj heq.symm
    rw [h0, if_neg hne2, Nat.add_zero]
    have hiff : (j ∉ pids (s.client.pendingRequests.filter (fun e => decide (e.id ≠ i)))) ↔
        j ∉ pendingIds s := by
      rw [not_iff_not]
      rw [mem_pids_filter_ne]
      constructor
      · intro hand
        exact hand.1
      · intro hm
        exact ⟨hm, hj⟩
    rw [if_congr (and_congr Iff.rfl hiff.symm) rfl rfl]

theorem invGood_settleHit (s : Sys) (hc : InvCore s) (hg : InvGood s) (i : String)
    (r : InFrame) (hid : r.id = some i) (hmem : i ∈ pendingIds s)
    (hmsg : r.msg = some "result" ∨ r.msg = some "error") (hrec : r ∈ s.received) :
    InvGood (settleHit s i r) := by
  rcases hmsg with hmsg | hmsg
  · constructor
    · intro j
      show countS (settleHit s i r).settled j = _
      simp only [settleHit, hmsg, if_pos rfl]
      exact settled_append_counting s hc hg i hmem (Outcome.resolved r.result) j
    · intro p hp
      simp only [settleHit, hmsg, if_pos rfl] at hp
      rcases List.mem_append.mp hp with hp | hp
      · exact correlates_mono s.received _ p.1 p.2 (fun q hq => hq) (hg.correlated p hp)
      · rw [List.mem_singleton.mp hp]
        exact ⟨r, hrec, hid, hmsg, rfl⟩
  · have hne : r.msg ≠ some "result" := by
      rw [hmsg]
      simp
    constructor
    · intro j
      show countS (settleHit s i r).settled j = _
      simp only [settleHit, hmsg, hne, if_neg hne, if_pos rfl]
      exact settled_append_counting s hc hg i hmem
        (Outcome.rejected (r.errorMessage.getD "Unknown error")) j
    · intro p hp
      simp only [settleHit, hmsg, hne, if_neg hne, if_pos rfl] at hp
      rcases List.mem_append.mp hp with hp | hp
      · exact correlates_mono s.received _ p.1 p.2 (fun q hq => hq) (hg.correlated p hp)
      · rw [List.mem_singleton.mp hp]
        exact Or.inr ⟨r, hrec, hid, hmsg, rfl⟩

theorem invGood_fireTimeout (s : Sys) (hc : InvCore s) (hg : InvGood s) (i : String) :
    InvGood (fireTimeout s i) := by
  unfold fireTimeout
  split_ifs with h1
  · rw [Option.isSome_iff_exists] at h1
    obtain ⟨e, he⟩ := h1
    obtain ⟨hel, heid⟩ := find?_eq_some_mem_pids _ i e he
    have hmem : i ∈ pendingIds s := (mem_pids _ _).mpr ⟨e, hel, heid⟩
    constructor
    · intro j
      show countS (s.settled ++ [(i, Outcome.rejected "Request timeout")]) j = _
      exact settled_append_counting s hc hg i hmem (Outcome.rejected "Request timeout") j
    · intro p hp
      rcases List.mem_append.mp hp with hp | hp
      · exact correlates_mono s.received _ p.1 p.2 (fun q hq => hq) (hg.correlated p hp)
      · rw [List.mem_singleton.mp hp]
        exact Or.inl rfl
  · exact hg

theorem invGood_tryAlt (s : Sys) (hg : InvGood s) (now : Nat) :
    InvGood (tryAlternativeAuth s now) := by
  by_cases hws : s.client.ws = some ReadyState.opened
  · rw [tryAlt_open s now hws]
    exact invGood_of_eq _ s hg rfl rfl rfl (fun r hr => hr)
  · rw [tryAlt_not_open s now (fun rs hrs => by
      intro hrseq
      exact hws (hrseq ▸ hrs))]
    exact hg

theorem invGood_step (s : Sys) (hc : InvCore s) (hg : InvGood s) (e : Event)
    (hb : EventBenign e) : InvGood (stepEvent s e) := by
  cases e with
  | issueCall now method params => exact invGood_call s hc hg now method params
  | recv now d =>
    show InvGood (handleMessage (recordInbound s d) now d)
    cases d with
    | malformed => exact hg
    | frame r =>
      have hrecmem : r ∈ (recordInbound s (Inbound.frame r)).received := by
        simp [recordInbound]
      have hc2 : InvCore (recordInbound s (Inbound.frame r)) :=
        invCore_recordInbound s hc (Inbound.frame r)
      have hg2 : InvGood (recordInbound s (Inbound.frame r)) := by
        refine invGood_of_eq _ s hg rfl rfl rfl ?_
        intro q hq
        simp [recordInbound, hq]
      by_cases h1 : r.msg = some "connected"
      · rw [handleMessage_connected _ now r h1]; exact hg2
      · by_cases h2 : r.msg = some "failed"
        · rw [handleMessage_failed _ now r h2]; exact invGood_tryAlt _ hg2 now
        · by_cases h3 : r.msg = some "pong"
          · rw [handleMessage_pong _ now r h3]; exact hg2
          · have hmsg : r.msg = some "result" ∨ r.msg = some "error" := by
              rcases hb with hb | hb | hb | hb | hb
              · exact absurd hb h1
              · exact absurd hb h2
              · exact absurd hb h3
              · exact Or.inl hb
              · exact Or.inr hb
            cases hid : r.id with
            | none => rw [handleMessage_no_id _ now r h1 h2 h3 hid]; exact hg2
            | some i =>
              cases hfind : (recordInbound s (Inbound.frame r)).client.pendingRequests.find?
                  (fun e => decide (e.id = i)) with
              | none => rw [handleMessage_miss _ now r i h1 h2 h3 hid hfind]; exact hg2
              | some e =>
                rw [handleMessage_hit _ now r i e h1 h2 h3 hid hfind]
                obtain ⟨hel, heid⟩ := find?_eq_some_mem_pids _ i e hfind
                exact invGood_settleHit _ hc2 hg2 i r hid
                  ((mem_pids _ _).mpr ⟨e, hel, heid⟩) hmsg hrecmem
  | timeoutFire i => exact invGood_fireTimeout s hc hg i
  | graceElapsed =>
    show InvGood (fireGrace s)
    unfold fireGrace
    split_ifs with h1
    · exact hg
    · exact invGood_of_eq _ s hg rfl rfl rfl (fun r hr => hr)
  | socketClose =>
    show InvGood (handleReconnect _)
    unfold handleReconnect
    split_ifs with h1 h2
    · exact invGood_of_eq _ s hg rfl rfl rfl (fun r hr => hr)
    · exact invGood_of_eq _ s hg rfl rfl rfl (fun r hr => hr)
    · exact invGood_of_eq _ s hg rfl rfl rfl (fun r hr => hr)
  | connectStart =>
    exact invGood_of_eq (stepEvent s Event.connectStart) s hg rfl rfl rfl (fun r hr => hr)
  | socketOpen =>
    show InvGood (match s.client.ws with
      | none => s
      | some _ =>
        { s with
            client := { s.client with ws := some ReadyState.opened },
            sent := s.sent ++ [OutFrame.connectNeg] })
    cases s.client.ws with
    | none => exact hg
    | some rs => exact invGood_of_eq _ s hg rfl rfl rfl (fun r hr => hr)
  | authSucceeded =>
    exact invGood_of_eq (stepEvent s Event.authSucceeded) s hg rfl rfl rfl (fun r hr => hr)
  | disconnectCall =>
    show InvGood (disconnect s)
    unfold disconnect
    cases s.client.ws with
    | none => exact hg
    | some rs => exact invGood_of_eq _ s hg rfl rfl rfl (fun r hr => hr)


/-! ### Trace-level lemmas -/

theorem runTrace_nil (s : Sys) : runTrace s [] = s := rfl

theorem runTrace_cons (s : Sys) (e : Event) (l : List Event) :
    runTrace s (e :: l) = runTrace (stepEvent s e) l := rfl

theorem runTrace_append (s : Sys) (l1 l2 : List Event) :
    runTrace s (l1 ++ l2) = runTrace (runTrace s l1) l2 := by
  simp [runTrace, List.foldl_append]

theorem tryAlt_issued (s : Sys) (now : Nat) :
    (tryAlternativeAuth s now).issued = s.issued := by
  by_cases hws : s.client.ws = some ReadyState.opened
  · rw [tryAlt_open s now hws]
  · rw [tryAlt_not_open s now (fun rs hrs => by
      intro hrseq
      exact hws (hrseq ▸ hrs))]

theorem handleMessage_issued (s : Sys) (now : Nat) (d : Inbound) :
    (handleMessage s now d).issued = s.issued := by
  cases d with
  | malformed => rfl
  | frame r =>
    by_cases h1 : r.msg = some "connected"
    · rw [handleMessage_connected s now r h1]
    · by_cases h2 : r.msg = some "failed"
      · rw [handleMessage_failed s now r h2]
        exact tryAlt_issued s now
      · by_cases h3 : r.msg = some "pong"
        · rw [handleMessage_pong s now r h3]
        · cases hid : r.id with
          | none => rw [handleMessage_no_id s now r h1 h2 h3 hid]
          | some i =>
            cases hfind : s.client.pendingRequests.find? (fun e => decide (e.id = i)) with
            | none => rw [handleMessage_miss s now r i h1 h2 h3 hid hfind]
            | some e => rw [handleMessage_hit s now r i e h1 h2 h3 hid hfind]; rfl

theorem issued_mono_step (s : Sys) (e : Event) (i : String) (h : i ∈ s.issued) :
    i ∈ (stepEvent s e).issued := by
  cases e with
  | issueCall now method params =>
    show i ∈ (call s now method params).1.issued
    by_cases hws : s.client.ws = some ReadyState.opened
    · rw [call_open s now method params hws]
      exact List.mem_append.mpr (Or.inl h)
    · rw [call_not_open s now method params (fun rs hrs => by
        intro hrseq
        exact hws (hrseq ▸ hrs))]
      exact h
  | recv now d =>
    show i ∈ (handleMessage (recordInbound s d) now d).issued
    rw [handleMessage_issued]
    cases d with
    | malformed => exact h
    | frame r => exact h
  | timeoutFire j =>
    show i ∈ (fireTimeout s j).issued
    unfold fireTimeout
    split_ifs <;> exact h
  | graceElapsed =>
    show i ∈ (fireGrace s).issued
    unfold fireGrace
    split_ifs <;> exact h
  | socketClose =>
    show i ∈ (handleReconnect _).issued
    unfold handleReconnect
    split_ifs <;> exact h
  | connectStart => exact h
  | socketOpen =>
    show i ∈ (match s.client.ws with
      | none => s
      | some _ =>
        { s with
            client := { s.client with ws := some ReadyState.opened },
            sent := s.sent ++ [OutFrame.connectNeg] }).issued
    cases s.client.ws with
    | none => exact h
    | some rs => exact h
  | authSucceeded => exact h
  | disconnectCall =>
    show i ∈ (disconnect s).issued
    unfold disconnect
    cases s.client.ws with
    | none => exact h
    | some rs => exact h

theorem no_reentry_step (s : Sys) (hc : InvCore s) (i : String) (hi : i ∈ s.issued)
    (hp : i ∉ pendingIds s) (e : Event) : i ∉ pendingIds (stepEvent s e) := by
  cases e with
  | issueCall now method params =>
    show i ∉ pendingIds (call s now method params).1
    by_cases hws : s.client.ws = some ReadyState.opened
    · rw [call_open s now method params hws]
      intro hmem
      simp only [pendingIds, pids_append] at hmem
      rcases List.mem_append.mp hmem with hm | hm
      · exact hp hm
      · simp only [pids, List.map_cons, List.map_nil, List.mem_singleton] at hm
        exact fresh_not_issued s hc now (hm ▸ hi)
    · rw [call_not_open s now method params (fun rs hrs => by
        intro hrseq
        exact hws (hrseq ▸ hrs))]
      exact hp
  | recv now d =>
    show i ∉ pendingIds (handleMessage (recordInbound s d) now d)
    have hrecp : (recordInbound s d).client.pendingRequests = s.client.pendingRequests := by
      cases d with
      | malformed => rfl
      | frame r => rfl
    intro hmem
    refine hp ?_
    cases d with
    | malformed => exact hmem
    | frame r =>
      by_cases h1 : r.msg = some "connected"
      · rw [handleMessage_connected _ now r h1] at hmem
        simpa [pendingIds, hrecp] using hmem
      · by_cases h2 : r.msg = some "failed"
        · rw [handleMessage_failed _ now r h2] at hmem
          by_cases hws : (recordInbound s (Inbound.frame r)).client.ws = some ReadyState.opened
          · rw [tryAlt_open _ now hws] at hmem
            simpa [pendingIds, hrecp] using hmem
          · rw [tryAlt_not_open _ now (fun rs hrs => by
              intro hrseq
              exact hws (hrseq ▸ hrs))] at hmem
            simpa [pendingIds, hrecp] using hmem
        · by_cases h3 : r.msg = some "pong"
          · rw [handleMessage_pong _ now r h3] at hmem
            simpa [pendingIds, hrecp] using hmem
          · cases hid : r.id with
            | none =>
              rw [handleMessage_no_id _ now r h1 h2 h3 hid] at hmem
              simpa [pendingIds, hrecp] using hmem
            | some j =>
              cases hfind : (recordInbound s (Inbound.frame r)).client.pendingRequests.find?
                  (fun e => decide (e.id = j)) with
              | none =>
                rw [handleMessage_miss _ now r j h1 h2 h3 hid hfind] at hmem
                simpa [pendingIds, hrecp] using hmem
              | some e =>
                rw [handleMessage_hit _ now r j e h1 h2 h3 hid hfind] at hmem
                have := ((mem_pids_filter_ne _ _ _).mp (by
                  simpa [pendingIds, settleHit, hrecp] using hmem)).1
                exact this
  | timeoutFire j =>
    show i ∉ pendingIds (fireTimeout s j)
    unfold fireTimeout
    split_ifs with h1
    · intro hmem
      exact hp ((mem_pids_filter_ne _ _ _).mp hmem).1
    · exact hp
  | graceElapsed =>
    show i ∉ pendingIds (fireGrace s)
    unfold fireGrace
    split_ifs <;> exact hp
  | socketClose =>
    show i ∉ pendingIds (handleReconnect _)
    unfold handleReconnect
    split_ifs <;> exact hp
  | connectStart => exact hp
  | socketOpen =>
    show i ∉ pendingIds (match s.client.ws with
      | none => s
      | some _ =>
        { s with
            client := { s.client with ws := some ReadyState.opened },
            sent := s.sent ++ [OutFrame.connectNeg] })
    cases s.client.ws with
    | none => exact hp
    | some rs => exact hp
  | authSucceeded => exact hp
  | disconnectCall =>
    show i ∉ pendingIds (disconnect s)
    unfold disconnect
    cases s.client.ws with
    | none => exact hp
    | some rs => exact hp

theorem fireTimeout_clears (s : Sys) (i : String) : i ∉ pendingIds (fireTimeout s i) := by
  unfold fireTimeout
  split_ifs with h1
  · intro hmem
    exact ((mem_pids_filter_ne _ _ _).mp hmem).2 rfl
  · rw [Option.not_isSome_iff_eq_none] at h1
    rw [List.find?_eq_none] at h1
    intro hmem
    obtain ⟨e, he, heq⟩ := (mem_pids _ _).mp hmem
    have := h1 e he
    simp [heq] at this

theorem invCore_run (s : Sys) (tr : List Event) (h : InvCore s) :
    InvCore (runTrace s tr) := by
  induction tr generalizing s with
  | nil => exact h
  | cons e rest ih =>
    rw [runTrace_cons]
    exact ih (stepEvent s e) (invCore_step s h e)

theorem invGood_run (s : Sys) (tr : List Event) (hc : InvCore s) (hg : InvGood s)
    (hb : ∀ e ∈ tr, EventBenign e) : InvGood (runTrace s tr) := by
  induction tr generalizing s with
  | nil => exact hg
  | cons e rest ih =>
    rw [runTrace_cons]
    exact ih (stepEvent s e) (invCore_step s hc e)
      (invGood_step s hc hg e (hb e (List.mem_cons_self e rest)))
      (fun q hq => hb q (List.mem_cons_of_mem e hq))

theorem issued_mono_run (s : Sys) (tr : List Event) (i : String) (h : i ∈ s.issued) :
    i ∈ (runTrace s tr).issued := by
  induction tr generalizing s with
  | nil => exact h
  | cons e rest ih =>
    rw [runTrace_cons]
    exact ih (stepEvent s e) (issued_mono_step s e i h)

theorem no_reentry_run (s : Sys) (tr : List Event) (i : String) (hc : InvCore s)
    (hi : i ∈ s.issued) (hp : i ∉ pendingIds s) : i ∉ pendingIds (runTrace s tr) := by
  induction tr generalizing s with
  | nil => exact hp
  | cons e rest ih =>
    rw [runTrace_cons]
    exact ih (stepEvent s e) (invCore_step s hc e) (issued_mono_step s e i hi)
      (no_reentry_step s hc i hi hp e)

theorem first_appearance (l : List Event) : ∀ (s : Sys) (i : String),
    i ∈ (runTrace s l).issued → i ∈ s.issued ∨
      ∃ n, n < l.length ∧ i ∉ (runTrace s (l.take n)).issued ∧
        i ∈ (runTrace s (l.take (n + 1))).issued := by
  induction l with
  | nil =>
    intro s i h
    exact Or.inl h
  | cons e rest ih =>
    intro s i h
    rw [runTrace_cons] at h
    rcases ih (stepEvent s e) i h with hstep | ⟨n, hn, hno, hyes⟩
    · by_cases hs : i ∈ s.issued
      · exact Or.inl hs
      · refine Or.inr ⟨0, Nat.succ_pos _, ?_, ?_⟩
        · simpa [runTrace_nil] using hs
        · simpa [List.take_succ_cons, runTrace_cons, runTrace_nil] using hstep
    · refine Or.inr ⟨n + 1, Nat.succ_lt_succ hn, ?_, ?_⟩
      · simpa [List.take_succ_cons, runTrace_cons] using hno
      · simpa [List.take_succ_cons, runTrace_cons] using hyes

theorem invCore_init (cfg : TrueNASConfig) : InvCore (initSys cfg) := by
  constructor
  · exact List.nodup_nil
  · intro i him
    exact absurd him (List.not_mem_nil i)
  · intro i him
    exact absurd him (List.not_mem_nil i)
  · exact List.nodup_nil

theorem invGood_init (cfg : TrueNASConfig) : InvGood (initSys cfg) := by
  constructor
  · intro i
    simp [initSys, countSettled, countS, initClient, pendingIds, pids]
  · intro p hp
    exact absurd hp (List.not_mem_nil p)


/-! ### Claim C1 -/

/-- C1: for every set of concurrent calls issued through `call` on one
session and every interleaving of inbound result/error frames (together
with the id-less control frames the client knows), each registered call's
promise settles exactly once — provided, as the runtime guarantees, the
30 s timeout timer of every issued call eventually fires — and every
settlement carrying a payload is justified by a received response frame
bearing that call's own correlation id, never another call's. -/
theorem call_settles_exactly_once_correlated (cfg : TrueNASConfig) (tr : List Event)
    (hb : ∀ e ∈ tr, EventBenign e)
    (hcomplete : ∀ n, n < tr.length → ∀ i,
      i ∉ (runTrace (initSys cfg) (tr.take n)).issued →
      i ∈ (runTrace (initSys cfg) (tr.take (n + 1))).issued →
      Event.timeoutFire i ∈ tr.drop (n + 1)) :
    ∀ i ∈ (runTrace (initSys cfg) tr).issued,
      countSettled (runTrace (initSys cfg) tr) i = 1 ∧
      ∀ o, (i, o) ∈ (runTrace (initSys cfg) tr).settled →
        Correlates (runTrace (initSys cfg) tr).received i o := by
  intro i hi
  have hgf : InvGood (runTrace (initSys cfg) tr) :=
    invGood_run _ tr (invCore_init cfg) (invGood_init cfg) hb
  rcases first_appearance tr (initSys cfg) i hi with h0 | ⟨n, hn, hno, hyes⟩
  · exact absurd h0 (List.not_mem_nil i)
  have htf := hcomplete n hn i hno hyes
  obtain ⟨u, v, huv⟩ := List.append_of_mem htf
  have hdec : runTrace (initSys cfg) tr =
      runTrace (runTrace (runTrace (initSys cfg) (tr.take (n + 1))) u)
        (Event.timeoutFire i :: v) := by
    conv_lhs => rw [← List.take_append_drop (n + 1) tr]
    rw [runTrace_append, huv, runTrace_append]
  have hcoreMid : InvCore (runTrace (initSys cfg) (tr.take (n + 1))) :=
    invCore_run _ _ (invCore_init cfg)
  have hcoreA : InvCore (runTrace (runTrace (initSys cfg) (tr.take (n + 1))) u) :=
    invCore_run _ u hcoreMid
  have hiA : i ∈ (runTrace (runTrace (initSys cfg) (tr.take (n + 1))) u).issued :=
    issued_mono_run _ u i hyes
  have hpB : i ∉ pendingIds (stepEvent
      (runTrace (runTrace (initSys cfg) (tr.take (n + 1))) u) (Event.timeoutFire i)) :=
    fireTimeout_clears (runTrace (runTrace (initSys cfg) (tr.take (n + 1))) u) i
  have hiB : i ∈ (stepEvent (runTrace (runTrace (initSys cfg) (tr.take (n + 1))) u)
      (Event.timeoutFire i)).issued :=
    issued_mono_step _ _ i hiA
  have hcoreB : InvCore (stepEvent (runTrace (runTrace (initSys cfg) (tr.take (n + 1))) u)
      (Event.timeoutFire i)) := invCore_step _ hcoreA _
  have hfinal : i ∉ pendingIds (runTrace (initSys cfg) tr) := by
    rw [hdec, runTrace_cons]
    exact no_reentry_run _ v i hcoreB hiB hpB
  refine ⟨?_, ?_⟩
  · have hcount := hgf.settle_count i
    rw [if_pos ⟨hi, hfinal⟩] at hcount
    exact hcount
  · intro o hmem
    exact hgf.correlated (i, o) hmem

/-- A concrete configuration used by the concrete executions below. -/
def cfgEx : TrueNASConfig := { host := "nas.local", apiKey := "secret-key" }

/-- A concrete benign trace: connect, open, one call, its result frame,
then its (late, harmless) timeout firing. -/
def trEx : List Event :=
  [Event.connectStart, Event.socketOpen,
   Event.issueCall 100 "vm.query" none,
   Event.recv 105 (Inbound.frame
     { msg := some "result", id := some (mkId 100 0),
       result := some (Value.arr []), errorMessage := none }),
   Event.timeoutFire (mkId 100 0)]

theorem call_settles_exactly_once_correlated_witness :
    countSettled (runTrace (initSys cfgEx) trEx) (mkId 100 0) = 1 := by
  have hb : ∀ e ∈ trEx, EventBenign e := by
    intro e he
    fin_cases he
    · exact trivial
    · exact trivial
    · exact trivial
    · exact Or.inr (Or.inr (Or.inr (Or.inl rfl)))
    · exact trivial
  have hcomplete : ∀ n, n < trEx.length → ∀ i,
      i ∉ (runTrace (initSys cfgEx) (trEx.take n)).issued →
      i ∈ (runTrace (initSys cfgEx) (trEx.take (n + 1))).issued →
      Event.timeoutFire i ∈ trEx.drop (n + 1) := by
    intro n hn i h1 h2
    have hn5 : n < 5 := by simpa [trEx] using hn
    interval_cases n
    · rw [show (runTrace (initSys cfgEx) (trEx.take (0 + 1))).issued = [] from by decide] at h2
      exact absurd h2 (List.not_mem_nil i)
    · rw [show (runTrace (initSys cfgEx) (trEx.take (1 + 1))).issued = [] from by decide] at h2
      exact absurd h2 (List.not_mem_nil i)
    · rw [show (runTrace (initSys cfgEx) (trEx.take (2 + 1))).issued =
          [mkId 100 0] from by decide] at h2
      obtain rfl := List.mem_singleton.mp h2
      show Event.timeoutFire (mkId 100 0) ∈ trEx.drop 3
      exact List.mem_cons_of_mem _ (List.mem_cons_self _ _)
    · rw [show (runTrace (initSys cfgEx) (trEx.take 3)).issued =
          [mkId 100 0] from by decide] at h1
      rw [show (runTrace (initSys cfgEx) (trEx.take (3 + 1))).issued =
          [mkId 100 0] from by decide] at h2
      exact absurd h2 h1
    · rw [show (runTrace (initSys cfgEx) (trEx.take 4)).issued =
          [mkId 100 0] from by decide] at h1
      rw [show (runTrace (initSys cfgEx) (trEx.take (4 + 1))).issued =
          [mkId 100 0] from by decide] at h2
      exact absurd h2 h1
  have hmem : mkId 100 0 ∈ (runTrace (initSys cfgEx) trEx).issued := by
    rw [show (runTrace (initSys cfgEx) trEx).issued = [mkId 100 0] from by decide]
    exact List.mem_singleton.mpr rfl
  exact (call_settles_exactly_once_correlated cfgEx trEx hb hcomplete (mkId 100 0) hmem).1


/-! ### Field-preservation helpers -/

theorem tryAlt_fields (s : Sys) (now : Nat) :
    (tryAlternativeAuth s now).client = s.client ∧
    (tryAlternativeAuth s now).scheduledReconnects = s.scheduledReconnects := by
  by_cases hws : s.client.ws = some ReadyState.opened
  · rw [tryAlt_open s now hws]
    exact ⟨rfl, rfl⟩
  · rw [tryAlt_not_open s now (fun rs hrs => by
      intro hrseq
      exact hws (hrseq ▸ hrs))]
    exact ⟨rfl, rfl⟩

theorem handleMessage_fields (s : Sys) (now : Nat) (d : Inbound) :
    (handleMessage s now d).client.ws = s.client.ws ∧
    (handleMessage s now d).client.intentionalDisconnect = s.client.intentionalDisconnect ∧
    (handleMessage s now d).client.reconnectAttempts = s.client.reconnectAttempts ∧
    (handleMessage s now d).scheduledReconnects = s.scheduledReconnects ∧
    (handleMessage s now d).client.requestCounter = s.client.requestCounter := by
  cases d with
  | malformed => exact ⟨rfl, rfl, rfl, rfl, rfl⟩
  | frame r =>
    by_cases h1 : r.msg = some "connected"
    · rw [handleMessage_connected s now r h1]
      exact ⟨rfl, rfl, rfl, rfl, rfl⟩
    · by_cases h2 : r.msg = some "failed"
      · rw [handleMessage_failed s now r h2]
        obtain ⟨hcl, hsch⟩ := tryAlt_fields s now
        rw [hcl, hsch]
        exact ⟨rfl, rfl, rfl, rfl, rfl⟩
      · by_cases h3 : r.msg = some "pong"
        · rw [handleMessage_pong s now r h3]
          exact ⟨rfl, rfl, rfl, rfl, rfl⟩
        · cases hid : r.id with
          | none =>
            rw [handleMessage_no_id s now r h1 h2 h3 hid]
            exact ⟨rfl, rfl, rfl, rfl, rfl⟩
          | some i =>
            cases hfind : s.client.pendingRequests.find? (fun e => decide (e.id = i)) with
            | none =>
              rw [handleMessage_miss s now r i h1 h2 h3 hid hfind]
              exact ⟨rfl, rfl, rfl, rfl, rfl⟩
            | some e =>
              rw [handleMessage_hit s now r i e h1 h2 h3 hid hfind]
              exact ⟨rfl, rfl, rfl, rfl, rfl⟩

theorem counter_mono_step (s : Sys) (e : Event) :
    s.client.requestCounter ≤ (stepEvent s e).client.requestCounter := by
  cases e with
  | issueCall now method params =>
    show s.client.requestCounter ≤ (call s now method params).1.client.requestCounter
    by_cases hws : s.client.ws = some ReadyState.opened
    · rw [call_open s now method params hws]
      exact Nat.le_succ _
    · rw [call_not_open s now method params (fun rs hrs => by
        intro hrseq
        exact hws (hrseq ▸ hrs))]
  | recv now d =>
    show s.client.requestCounter ≤ (handleMessage (recordInbound s d) now d).client.requestCounter
    rw [(handleMessage_fields (recordInbound s d) now d).2.2.2.2]
    cases d with
    | malformed => exact Nat.le_refl _
    | frame r => exact Nat.le_refl _
  | timeoutFire j =>
    show s.client.requestCounter ≤ (fireTimeout s j).client.requestCounter
    unfold fireTimeout
    split_ifs <;> exact Nat.le_refl _
  | graceElapsed =>
    show s.client.requestCounter ≤ (fireGrace s).client.requestCounter
    unfold fireGrace
    split_ifs <;> exact Nat.le_refl _
  | socketClose =>
    show s.client.requestCounter ≤ (handleReconnect _).client.requestCounter
    unfold handleReconnect
    split_ifs <;> exact Nat.le_refl _
  | connectStart => exact Nat.le_refl _
  | socketOpen =>
    show s.client.requestCounter ≤ (match s.client.ws with
      | none => s
      | some _ =>
        { s with
            client := { s.client with ws := some ReadyState.opened },
            sent := s.sent ++ [OutFrame.connectNeg] }).client.requestCounter
    cases s.client.ws with
    | none => exact Nat.le_refl _
    | some rs => exact Nat.le_refl _
  | authSucceeded => exact Nat.le_refl _
  | disconnectCall =>
    show s.client.requestCounter ≤ (disconnect s).client.requestCounter
    unfold disconnect
    cases s.client.ws with
    | none => exact Nat.le_refl _
    | some rs => exact Nat.le_refl _

/-! ### Claim C2 -/

/-- C2: a call issued while the socket handle is absent or not in the open
state fails immediately with the NotConnected error and the pending table
is unchanged by the failed call. -/
theorem call_not_connected_leaves_pending (s : Sys) (now : Nat) (method : String)
    (params : Option (List Value)) (h : s.client.ws ≠ some ReadyState.opened) :
    (call s now method params).2 = Except.error TNError.notConnected ∧
    (call s now method params).1.client.pendingRequests = s.client.pendingRequests := by
  rw [call_not_open s now method params (fun rs hrs => by
    intro hrseq
    exact h (hrseq ▸ hrs))]
  exact ⟨rfl, rfl⟩

theorem call_not_connected_leaves_pending_witness :
    (call (initSys cfgEx) 0 "vm.query" none).2 = Except.error TNError.notConnected ∧
    (call (initSys cfgEx) 0 "vm.query" none).1.client.pendingRequests =
      (initSys cfgEx).client.pendingRequests :=
  call_not_connected_leaves_pending (initSys cfgEx) 0 "vm.query" none (by decide)

/-! ### Claim C3 -/

/-- C3: an entry registered by `call` carries the 30000 ms deadline; a
timeout firing while its id is still pending removes the entry and rejects
the caller with Request timeout; and a result or error frame whose id is
not (or no longer) in the table leaves the client state entirely
unchanged — dropped silently. -/
theorem timeout_rejects_and_late_frames_dropped (s : Sys) (now : Nat) (i : String) :
    (s.client.ws = some ReadyState.opened → ∀ method params,
      (call s now method params).1.client.pendingRequests =
        s.client.pendingRequests ++
          [{ id := mkId now s.client.requestCounter, deadline := now + requestTimeoutMs }]) ∧
    (i ∈ pendingIds s →
      (fireTimeout s i).client.pendingRequests =
        s.client.pendingRequests.filter (fun e => decide (e.id ≠ i)) ∧
      (fireTimeout s i).settled = s.settled ++ [(i, Outcome.rejected "Request timeout")] ∧
      i ∉ pendingIds (fireTimeout s i)) ∧
    (∀ (r : InFrame) (j : String), (r.msg = some "result" ∨ r.msg = some "error") →
      r.id = some j → j ∉ pendingIds s →
      handleMessage s now (Inbound.frame r) = s) := by
  refine ⟨?_, ?_, ?_⟩
  · intro hws method params
    rw [call_open s now method params hws]
  · intro hmem
    obtain ⟨e, hel, heid⟩ := (mem_pids _ _).mp hmem
    have hsome : (s.client.pendingRequests.find? (fun e => decide (e.id = i))).isSome := by
      rw [List.find?_isSome]
      exact ⟨e, hel, by simp [heid]⟩
    unfold fireTimeout
    rw [if_pos hsome]
    refine ⟨rfl, rfl, ?_⟩
    intro hmf
    exact ((mem_pids_filter_ne _ _ _).mp hmf).2 rfl
  · intro r j hmsg hid hnp
    have h1 : r.msg ≠ some "connected" := by
      rcases hmsg with hm | hm <;> simp [hm]
    have h2 : r.msg ≠ some "failed" := by
      rcases hmsg with hm | hm <;> simp [hm]
    have h3 : r.msg ≠ some "pong" := by
      rcases hmsg with hm | hm <;> simp [hm]
    have hfind : s.client.pendingRequests.find? (fun e => decide (e.id = j)) = none := by
      rw [List.find?_eq_none]
      intro x hx
      simp only [decide_eq_true_eq]
      intro heq
      exact hnp ((mem_pids _ _).mpr ⟨x, hx, heq⟩)
    exact handleMessage_miss s now r j h1 h2 h3 hid hfind

/-- A concrete client state with an open socket and one pending request. -/
def sEx : Sys :=
  { client := { config := cfgEx, ws := some ReadyState.opened, requestCounter := 1,
                pendingRequests := [{ id := mkId 100 0,
                                      deadline := 100 + requestTimeoutMs }],
                authenticated := true, reconnectAttempts := 0,
                intentionalDisconnect := false },
    sent := [], received := [], settled := [], scheduledReconnects := [],
    graceTimers := 0, issued := [mkId 100 0] }

theorem timeout_rejects_and_late_frames_dropped_witness :
    (fireTimeout sEx (mkId 100 0)).settled =
      sEx.settled ++ [(mkId 100 0, Outcome.rejected "Request timeout")] ∧
    handleMessage sEx 200
      (Inbound.frame
        { msg := some "result", id := some "7-7", result := none, errorMessage := none }) =
      sEx := by
  have h := timeout_rejects_and_late_frames_dropped sEx 200 (mkId 100 0)
  refine ⟨(h.2.1 (by decide)).2.1, ?_⟩
  exact h.2.2 { msg := some "result", id := some "7-7", result := none, errorMessage := none }
    "7-7" (Or.inl rfl) rfl (by decide)

/-! ### Claim C9 -/

/-- C9: the correlation id `call` would generate is never among the
currently pending ids (count zero in the pending key list) — structurally,
because every pending id embeds an older counter value and the decimal
rendering makes the counter recoverable; moreover a successful `call`
increments the counter by one and no event ever decreases it. -/
theorem fresh_id_never_pending (cfg : TrueNASConfig) (tr : List Event) (now : Nat) :
    (pendingIds (runTrace (initSys cfg) tr)).count
        (mkId now (runTrace (initSys cfg) tr).client.requestCounter) = 0 ∧
    (∀ method params, (runTrace (initSys cfg) tr).client.ws = some ReadyState.opened →
      (call (runTrace (initSys cfg) tr) now method params).1.client.requestCounter =
        (runTrace (initSys cfg) tr).client.requestCounter + 1) ∧
    (∀ e, (runTrace (initSys cfg) tr).client.requestCounter ≤
      (stepEvent (runTrace (initSys cfg) tr) e).client.requestCounter) := by
  refine ⟨?_, ?_, ?_⟩
  · rw [List.count_eq_zero]
    exact fresh_not_pending _ (invCore_run _ tr (invCore_init cfg)) now
  · intro method params hws
    rw [call_open _ now method params hws]
  · intro e
    exact counter_mono_step _ e

theorem fresh_id_never_pending_witness :
    (pendingIds (runTrace (initSys cfgEx) trEx)).count
        (mkId 7 (runTrace (initSys cfgEx) trEx).client.requestCounter) = 0 :=
  (fresh_id_never_pending cfgEx trEx 7).1


/-! ### Claim C5 -/

theorem disconnect_some (s : Sys) (rs : ReadyState) (h : s.client.ws = some rs) :
    disconnect s =
      { s with client := { s.client with
          intentionalDisconnect := true, ws := none, authenticated := false } } := by
  simp [disconnect, h]

theorem disconnect_none (s : Sys) (h : s.client.ws = none) : disconnect s = s := by
  simp [disconnect, h]

theorem isConnected_none (s : Sys) (h : s.client.ws = none) : isConnected s = false := by
  simp [isConnected, h]

theorem socketOpen_none (s : Sys) (h : s.client.ws = none) :
    stepEvent s Event.socketOpen = s := by
  show (match s.client.ws with
    | none => s
    | some _ =>
      { s with
          client := { s.client with ws := some ReadyState.opened },
          sent := s.sent ++ [OutFrame.connectNeg] }) = s
  rw [h]

theorem fireTimeout_fields (s : Sys) (j : String) :
    (fireTimeout s j).client.ws = s.client.ws ∧
    (fireTimeout s j).client.intentionalDisconnect = s.client.intentionalDisconnect ∧
    (fireTimeout s j).scheduledReconnects = s.scheduledReconnects ∧
    (fireTimeout s j).client.reconnectAttempts = s.client.reconnectAttempts := by
  unfold fireTimeout
  split_ifs <;> exact ⟨rfl, rfl, rfl, rfl⟩

theorem fireGrace_fields (s : Sys) :
    (fireGrace s).client.ws = s.client.ws ∧
    (fireGrace s).client.intentionalDisconnect = s.client.intentionalDisconnect ∧
    (fireGrace s).scheduledReconnects = s.scheduledReconnects ∧
    (fireGrace s).client.reconnectAttempts = s.client.reconnectAttempts := by
  unfold fireGrace
  split_ifs <;> exact ⟨rfl, rfl, rfl, rfl⟩

theorem handleReconnect_flagged (s : Sys) (h : s.client.intentionalDisconnect = true) :
    handleReconnect s = s := by
  unfold handleReconnect
  rw [if_pos h]

theorem flagged_no_reconnect (tr : List Event) : ∀ s : Sys,
    Event.connectStart ∉ tr →
    s.client.intentionalDisconnect = true → s.client.ws = none →
    (runTrace s tr).scheduledReconnects = s.scheduledReconnects ∧
    (runTrace s tr).client.ws = none ∧
    (runTrace s tr).client.intentionalDisconnect = true := by
  induction tr with
  | nil =>
    intro s _ hf hw
    exact ⟨rfl, hw, hf⟩
  | cons e rest ih =>
    intro s hcon hf hw
    have hstep : (stepEvent s e).scheduledReconnects = s.scheduledReconnects ∧
        (stepEvent s e).client.ws = none ∧
        (stepEvent s e).client.intentionalDisconnect = true := by
      cases e with
      | issueCall now method params =>
        have heq : stepEvent s (Event.issueCall now method params) = s := by
          show (call s now method params).1 = s
          rw [call_not_open s now method params (fun rs hrs => by
            intro _
            rw [hw] at hrs
            cases hrs)]
        rw [heq]
        exact ⟨rfl, hw, hf⟩
      | recv now d =>
        refine ⟨?_, ?_, ?_⟩
        · show (handleMessage (recordInbound s d) now d).scheduledReconnects = _
          rw [(handleMessage_fields _ now d).2.2.2.1]
          cases d with
          | malformed => rfl
          | frame r => rfl
        · show (handleMessage (recordInbound s d) now d).client.ws = none
          rw [(handleMessage_fields _ now d).1]
          cases d with
          | malformed => exact hw
          | frame r => exact hw
        · show (handleMessage (recordInbound s d) now d).client.intentionalDisconnect = true
          rw [(handleMessage_fields _ now d).2.1]
          cases d with
          | malformed => exact hf
          | frame r => exact hf
      | timeoutFire j =>
        have hflds := fireTimeout_fields s j
        exact ⟨hflds.2.2.1, hflds.1.trans hw, hflds.2.1.trans hf⟩
      | graceElapsed =>
        have hflds := fireGrace_fields s
        exact ⟨hflds.2.2.1, hflds.1.trans hw, hflds.2.1.trans hf⟩
      | socketClose =>
        have heq : stepEvent s Event.socketClose =
            { s with client := { s.client with authenticated := false } } := by
          show handleReconnect _ = _
          exact handleReconnect_flagged _ hf
        rw [heq]
        exact ⟨rfl, hw, hf⟩
      | connectStart =>
        exact absurd (List.mem_cons_self _ rest) hcon
      | socketOpen =>
        rw [socketOpen_none s hw]
        exact ⟨rfl, hw, hf⟩
      | authSucceeded => exact ⟨rfl, hw, hf⟩
      | disconnectCall =>
        have heq : stepEvent s Event.disconnectCall = s := disconnect_none s hw
        rw [heq]
        exact ⟨rfl, hw, hf⟩
    obtain ⟨h1, h2, h3⟩ := hstep
    have hrest := ih (stepEvent s e) (fun hm => hcon (List.mem_cons_of_mem e hm)) h3 h2
    rw [runTrace_cons]
    exact ⟨hrest.1.trans h1, hrest.2.1, hrest.2.2⟩

/-- A client just after an unintentional socket closure: `handleReconnect`
has incremented the attempt counter and a 2000 ms backoff timer toward
`this.connect()` (line 137) is outstanding (recorded in
`scheduledReconnects`); the dead socket handle is still held. -/
def sPend : Sys :=
  { client := { config := cfgEx, ws := some ReadyState.closed, requestCounter := 1,
                pendingRequests := [], authenticated := false, reconnectAttempts := 1,
                intentionalDisconnect := false },
    sent := [], received := [], settled := [], scheduledReconnects := [2000],
    graceTimers := 0, issued := [] }

/-- C5 evidence, evaluated at the failing input.  `handleReconnect`'s
backoff `setTimeout` (line 136) is never stored, so `disconnect()`
(lines 361-369) cannot and does not cancel it.  Starting from `sPend`
(a backoff timer already armed by a prior unintentional close), the caller
invokes `disconnect()`, which does set the intentional flag — but when the
stale timer then fires it enters `connect()` (the `connectStart` event
here is the timer's own `this.connect()` of line 137, not a caller call),
whose first statement (line 69) clears `intentionalDisconnect`.  The
socket opens, authentication succeeds, and `isConnected()` returns true;
the next unintentional closure schedules a fresh reconnect attempt.  The
claim says none of this can happen until the caller explicitly invokes
`connect()` again. -/
theorem stale_timer_reconnects_after_disconnect :
    (disconnect sPend).client.intentionalDisconnect = true ∧
    (runTrace (disconnect sPend) [Event.connectStart]).client.intentionalDisconnect = false ∧
    isConnected (runTrace (disconnect sPend)
      [Event.connectStart, Event.socketOpen, Event.authSucceeded]) = true ∧
    (runTrace (disconnect sPend)
      [Event.connectStart, Event.socketOpen, Event.authSucceeded,
       Event.socketClose]).scheduledReconnects = [2000, 2000] :=
  ⟨rfl, rfl, rfl, rfl⟩


/-! ### Claim C6 -/

theorem step_reconnect_cases (s : Sys) (e : Event) (he : e ≠ Event.authSucceeded) :
    ((stepEvent s e).client.reconnectAttempts = s.client.reconnectAttempts ∧
      (stepEvent s e).scheduledReconnects = s.scheduledReconnects) ∨
    (s.client.reconnectAttempts < maxReconnectAttempts ∧
      (stepEvent s e).client.reconnectAttempts = s.client.reconnectAttempts + 1 ∧
      (stepEvent s e).scheduledReconnects =
        s.scheduledReconnects ++ [2000 * (s.client.reconnectAttempts + 1)]) := by
  cases e with
  | issueCall now method params =>
    refine Or.inl ?_
    have hdef : stepEvent s (Event.issueCall now method params) =
        (call s now method params).1 := rfl
    by_cases hws : s.client.ws = some ReadyState.opened
    · rw [hdef, call_open s now method params hws]
      exact ⟨rfl, rfl⟩
    · rw [hdef, call_not_open s now method params (fun rs hrs => by
        intro hrseq
        exact hws (hrseq ▸ hrs))]
      exact ⟨rfl, rfl⟩
  | recv now d =>
    refine Or.inl ⟨?_, ?_⟩
    · show (handleMessage (recordInbound s d) now d).client.reconnectAttempts = _
      rw [(handleMessage_fields _ now d).2.2.1]
      cases d with
      | malformed => rfl
      | frame r => rfl
    · show (handleMessage (recordInbound s d) now d).scheduledReconnects = _
      rw [(handleMessage_fields _ now d).2.2.2.1]
      cases d with
      | malformed => rfl
      | frame r => rfl
  | timeoutFire j =>
    have hflds := fireTimeout_fields s j
    exact Or.inl ⟨hflds.2.2.2, hflds.2.2.1⟩
  | graceElapsed =>
    have hflds := fireGrace_fields s
    exact Or.inl ⟨hflds.2.2.2, hflds.2.2.1⟩
  | socketClose =>
    have hdef : stepEvent s Event.socketClose =
        handleReconnect { s with client := { s.client with authenticated := false } } := rfl
    rw [hdef]
    unfold handleReconnect
    split_ifs with h1 h2
    · exact Or.inl ⟨rfl, rfl⟩
    · exact Or.inr ⟨h2, rfl, rfl⟩
    · exact Or.inl ⟨rfl, rfl⟩
  | connectStart => exact Or.inl ⟨rfl, rfl⟩
  | socketOpen =>
    refine Or.inl ?_
    cases hws : s.client.ws with
    | none =>
      rw [socketOpen_none s hws]
      exact ⟨rfl, rfl⟩
    | some rs =>
      have hdef : stepEvent s Event.socketOpen =
          (match s.client.ws with
            | none => s
            | some _ =>
              { s with
                  client := { s.client with ws := some ReadyState.opened },
                  sent := s.sent ++ [OutFrame.connectNeg] }) := rfl
      rw [hdef, hws]
      exact ⟨rfl, rfl⟩
  | authSucceeded => exact absurd rfl he
  | disconnectCall =>
    refine Or.inl ?_
    cases hws : s.client.ws with
    | none =>
      have hdef : stepEvent s Event.disconnectCall = s := disconnect_none s hws
      rw [hdef]
      exact ⟨rfl, rfl⟩
    | some rs =>
      have hdef : stepEvent s Event.disconnectCall = disconnect s := rfl
      rw [hdef, disconnect_some s rs hws]
      exact ⟨rfl, rfl⟩

theorem range_map_shift (a0 m : Nat) :
    2000 * (a0 + 1) :: (List.range m).map (fun k => 2000 * (a0 + 1 + k + 1)) =
    (List.range (m + 1)).map (fun k => 2000 * (a0 + k + 1)) := by
  rw [List.range_succ_eq_map]
  rw [List.map_cons, List.map_map]
  congr 1
  · norm_num
    intro a _
    omega

theorem reconnect_growth (tr : List Event) : ∀ s : Sys, Event.authSucceeded ∉ tr →
    ∃ a1, (runTrace s tr).client.reconnectAttempts = a1 ∧
      s.client.reconnectAttempts ≤ a1 ∧
      (s.client.reconnectAttempts < a1 → a1 ≤ maxReconnectAttempts) ∧
      (runTrace s tr).scheduledReconnects = s.scheduledReconnects ++
        (List.range (a1 - s.client.reconnectAttempts)).map
          (fun k => 2000 * (s.client.reconnectAttempts + k + 1)) := by
  induction tr with
  | nil =>
    intro s _
    refine ⟨s.client.reconnectAttempts, rfl, Nat.le_refl _, ?_, by
      rw [runTrace_nil]
      simp⟩
    intro h
    exact absurd h (Nat.lt_irrefl _)
  | cons e rest ih =>
    intro s hna
    have hne : e ≠ Event.authSucceeded := fun heq => hna (heq ▸ List.mem_cons_self e rest)
    have hrest2 : Event.authSucceeded ∉ rest := fun hm => hna (List.mem_cons_of_mem e hm)
    rw [runTrace_cons]
    obtain ⟨a1, h1, h2, h3, h4⟩ := ih (stepEvent s e) hrest2
    rcases step_reconnect_cases s e hne with ⟨ha, hs⟩ | ⟨hlt, ha, hs⟩
    · refine ⟨a1, h1, ?_, ?_, ?_⟩
      · have h2b := h2
        rw [ha] at h2b
        exact h2b
      · intro hlt2
        refine h3 ?_
        rw [ha]
        exact hlt2
      · rw [h4, hs, ha]
    · have ha0 : s.client.reconnectAttempts + 1 ≤ a1 := by
        have h2b := h2
        rw [ha] at h2b
        exact h2b
      refine ⟨a1, h1, Nat.le_of_succ_le ha0, ?_, ?_⟩
      · intro _
        by_cases hcase : s.client.reconnectAttempts + 1 < a1
        · refine h3 ?_
          rw [ha]
          exact hcase
        · have heq : a1 = s.client.reconnectAttempts + 1 := by omega
          rw [heq]
          exact hlt
      · rw [h4, hs, ha]
        rw [List.append_assoc, List.singleton_append]
        congr 1
        have hm : a1 - s.client.reconnectAttempts =
            (a1 - (s.client.reconnectAttempts + 1)) + 1 := by omega
        rw [hm]
        exact range_map_shift s.client.reconnectAttempts _

/-- C6: starting from a Ready state (attempt counter zero), along any run
with no further authentication success the client schedules at most
`maxReconnectAttempts` reconnect timers, with strictly increasing delays
2000·1, 2000·2, …; no event other than authentication success ever lowers
the attempt counter, and authentication success resets it to zero. -/
theorem reconnect_bounded_backoff_reset (s : Sys) (tr : List Event)
    (h0 : s.client.reconnectAttempts = 0) (hna : Event.authSucceeded ∉ tr) :
    ∃ a, a ≤ maxReconnectAttempts ∧
      (runTrace s tr).client.reconnectAttempts = a ∧
      (runTrace s tr).scheduledReconnects = s.scheduledReconnects ++
        (List.range a).map (fun k => 2000 * (k + 1)) ∧
      List.Pairwise (fun x y => x < y) ((List.range a).map (fun k => 2000 * (k + 1))) ∧
      (∀ (s2 : Sys) (e : Event), e ≠ Event.authSucceeded →
        s2.client.reconnectAttempts ≤ (stepEvent s2 e).client.reconnectAttempts) ∧
      (∀ s2 : Sys, (stepEvent s2 Event.authSucceeded).client.reconnectAttempts = 0) := by
  obtain ⟨a1, h1, h2, h3, h4⟩ := reconnect_growth tr s hna
  refine ⟨a1, ?_, h1, ?_, ?_, ?_, ?_⟩
  · by_cases hz : 0 < a1
    · refine h3 ?_
      rw [h0]
      exact hz
    · have : a1 = 0 := by omega
      rw [this]
      exact Nat.zero_le _
  · rw [h4, h0]
    simp only [Nat.sub_zero, Nat.zero_add]
  · refine List.Pairwise.map _ ?_ (List.pairwise_lt_range a1)
    intro a b hab
    omega
  · intro s2 e he
    rcases step_reconnect_cases s2 e he with ⟨ha, _⟩ | ⟨_, ha, _⟩
    · rw [ha]
    · rw [ha]
      exact Nat.le_succ _
  · intro s2
    rfl

theorem reconnect_bounded_backoff_reset_witness :
    ∃ a, a ≤ maxReconnectAttempts ∧
      (runTrace sEx [Event.socketClose, Event.socketClose]).client.reconnectAttempts = a ∧
      (runTrace sEx [Event.socketClose, Event.socketClose]).scheduledReconnects =
        sEx.scheduledReconnects ++ (List.range a).map (fun k => 2000 * (k + 1)) ∧
      List.Pairwise (fun x y => x < y) ((List.range a).map (fun k => 2000 * (k + 1))) ∧
      (∀ (s2 : Sys) (e : Event), e ≠ Event.authSucceeded →
        s2.client.reconnectAttempts ≤ (stepEvent s2 e).client.reconnectAttempts) ∧
      (∀ s2 : Sys, (stepEvent s2 Event.authSucceeded).client.reconnectAttempts = 0) :=
  reconnect_bounded_backoff_reset sEx [Event.socketClose, Event.socketClose] rfl (by simp)


/-! ### Claim C7 -/

/-- C7: while the socket is open, a generic failure frame (msg `failed`,
no correlation id required) makes the client send the fallback auth frame
— a top-level auth object carrying the configured API key — and once the
1000 ms grace timer fires, with the socket still open, `isConnected`
returns true although no correlated confirmation was ever received. -/
theorem failed_frame_fallback_auth (s : Sys) (now : Nat) (r : InFrame)
    (hws : s.client.ws = some ReadyState.opened) (hmsg : r.msg = some "failed") :
    (stepEvent s (Event.recv now (Inbound.frame r))).sent =
      s.sent ++ [OutFrame.authAlt (natRepr now ++ "-auth") s.client.config.apiKey] ∧
    isConnected (stepEvent (stepEvent s (Event.recv now (Inbound.frame r)))
      Event.graceElapsed) = true := by
  have hdef : stepEvent s (Event.recv now (Inbound.frame r)) =
      handleMessage (recordInbound s (Inbound.frame r)) now (Inbound.frame r) := rfl
  have hrecws : (recordInbound s (Inbound.frame r)).client.ws = some ReadyState.opened := hws
  have hstep : stepEvent s (Event.recv now (Inbound.frame r)) =
      { recordInbound s (Inbound.frame r) with
          sent := (recordInbound s (Inbound.frame r)).sent ++
            [OutFrame.authAlt (natRepr now ++ "-auth")
              (recordInbound s (Inbound.frame r)).client.config.apiKey],
          graceTimers := (recordInbound s (Inbound.frame r)).graceTimers + 1 } := by
    rw [hdef, handleMessage_failed _ now r hmsg, tryAlt_open _ now hrecws]
  constructor
  · rw [hstep]
    rfl
  · rw [hstep]
    have hgrace : stepEvent
        ({ recordInbound s (Inbound.frame r) with
            sent := (recordInbound s (Inbound.frame r)).sent ++
              [OutFrame.authAlt (natRepr now ++ "-auth")
                (recordInbound s (Inbound.frame r)).client.config.apiKey],
            graceTimers := (recordInbound s (Inbound.frame r)).graceTimers + 1 })
        Event.graceElapsed =
        { recordInbound s (Inbound.frame r) with
            sent := (recordInbound s (Inbound.frame r)).sent ++
              [OutFrame.authAlt (natRepr now ++ "-auth")
                (recordInbound s (Inbound.frame r)).client.config.apiKey],
            graceTimers := (recordInbound s (Inbound.frame r)).graceTimers,
            client := { (recordInbound s (Inbound.frame r)).client with
              authenticated := true } } := by
      show fireGrace _ = _
      unfold fireGrace
      rw [if_neg (Nat.succ_ne_zero _)]
      rfl
    rw [hgrace]
    simp [isConnected, hrecws]

theorem failed_frame_fallback_auth_witness :
    (stepEvent sEx (Event.recv 300 (Inbound.frame
      { msg := some "failed", id := none, result := none, errorMessage := none }))).sent =
      sEx.sent ++ [OutFrame.authAlt (natRepr 300 ++ "-auth") sEx.client.config.apiKey] ∧
    isConnected (stepEvent (stepEvent sEx (Event.recv 300 (Inbound.frame
      { msg := some "failed", id := none, result := none, errorMessage := none })))
      Event.graceElapsed) = true :=
  failed_frame_fallback_auth sEx 300
    { msg := some "failed", id := none, result := none, errorMessage := none } rfl rfl


/-! ### Domain facade: the effect sequences of the restart operations

`restartVM` (lines 319-325) runs `await stopVM(vmId, {force: true})`, then
`await` a 1000 ms settle timer, then `await startVM(vmId)`; `restartApp`
(lines 354-358) runs `await stopApp` then `await startApp` with no timer.
Each facade method is embedded as its sequence of effects: the remote
calls it issues (through `call`) and the sleeps it awaits, in program
order — each `await` sequences the next effect strictly after the
previous one completed. -/

/-- The optional `options` argument of `stopVM`. -/
structure StopOptions where
  force : Option Bool

/-- An effect of a facade method: issue a remote call, or await a timer. -/
inductive Action where
  | sendCall (method : String) (params : List Value)
  | sleep (ms : Nat)

/-- Observable outcome of interpreting one action. -/
inductive Emit where
  | sentFrame (f : OutFrame)
  | slept (ms : Nat)

/-- `stopVM` (lines 313-317): `vm.stop` with `force = options?.force || false`. -/
def stopVMActions (vmId : Int) (options : Option StopOptions) : List Action :=
  [Action.sendCall "vm.stop"
    [Value.num vmId, Value.obj [("force", Value.bool ((options.bind StopOptions.force).getD false))]]]

/-- `startVM` (lines 308-311): `vm.start` with the vm id. -/
def startVMActions (vmId : Int) : List Action :=
  [Action.sendCall "vm.start" [Value.num vmId]]

/-- `restartVM` (lines 319-325): stop with force, 1000 ms settle, start. -/
def restartVMActions (vmId : Int) : List Action :=
  stopVMActions vmId (some { force := some true }) ++
    (Action.sleep 1000 :: startVMActions vmId)

/-- `stopApp` (lines 349-352): `app.stop` with the app name. -/
def stopAppActions (name : String) : List Action :=
  [Action.sendCall "app.stop" [Value.str name]]

/-- `startApp` (lines 344-347): `app.start` with the app name. -/
def startAppActions (name : String) : List Action :=
  [Action.sendCall "app.start" [Value.str name]]

/-- `restartApp` (lines 354-358): stop then start, no delay. -/
def restartAppActions (name : String) : List Action :=
  stopAppActions name ++ startAppActions name

/-- Interpret a facade script against the client: each `sendCall` goes
through `call` (aborting the whole method if it throws, as an `await` of a
rejected promise does), each `sleep` is recorded.  Returns the final state
and the ordered emissions. -/
def runScript (now : Nat) : Sys → List Action → Option (Sys × List Emit)
  | s, [] => some (s, [])
  | s, Action.sleep ms :: rest =>
    (runScript now s rest).map (fun p => (p.1, Emit.slept ms :: p.2))
  | s, Action.sendCall m ps :: rest =>
    match call s now m (some ps) with
    | (s1, Except.ok i) =>
      (runScript now s1 rest).map
        (fun p => (p.1, Emit.sentFrame (OutFrame.methodCall i m ps) :: p.2))
    | (_, Except.error _) => none

/-- Interpreting a script that begins with a remote call on an open
socket: the method frame with the freshly generated id is emitted and the
rest runs on the updated client. -/
theorem runScript_sendCall_open (now : Nat) (s : Sys) (m : String) (ps : List Value)
    (rest : List Action) (hws : s.client.ws = some ReadyState.opened) :
    runScript now s (Action.sendCall m ps :: rest) =
      (runScript now (call s now m (some ps)).1 rest).map
        (fun p => (p.1, Emit.sentFrame (OutFrame.methodCall
          (mkId now s.client.requestCounter) m ps) :: p.2)) := by
  show (match call s now m (some ps) with
    | (s1, Except.ok i) =>
      (runScript now s1 rest).map
        (fun (p : Sys × List Emit) =>
          (p.1, Emit.sentFrame (OutFrame.methodCall i m ps) :: p.2))
    | (_, Except.error _) => none) = _
  rw [call_open s now m (some ps) hws]

theorem runScript_sleep (now : Nat) (s : Sys) (ms : Nat) (rest : List Action) :
    runScript now s (Action.sleep ms :: rest) =
      (runScript now s rest).map (fun p => (p.1, Emit.slept ms :: p.2)) := rfl

theorem runScript_nil (now : Nat) (s : Sys) : runScript now s [] = some (s, []) := rfl

/-! ### Claim C8 -/

/-- C8: with an open session, `restartVM` emits exactly the stop call (with
`force = true`), then the 1000 ms settle sleep, then the start call — stop
strictly before start with the fixed delay between the two phases — while
`restartApp` emits stop then start with no sleep between them. -/
theorem restart_orders_stop_before_start (s : Sys) (vmId : Int) (appName : String)
    (now : Nat) (hws : s.client.ws = some ReadyState.opened) :
    (∃ s2, runScript now s (restartVMActions vmId) = some (s2,
      [Emit.sentFrame (OutFrame.methodCall (mkId now s.client.requestCounter) "vm.stop"
        [Value.num vmId, Value.obj [("force", Value.bool true)]]),
       Emit.slept 1000,
       Emit.sentFrame (OutFrame.methodCall (mkId now (s.client.requestCounter + 1)) "vm.start"
        [Value.num vmId])])) ∧
    (∃ s3, runScript now s (restartAppActions appName) = some (s3,
      [Emit.sentFrame (OutFrame.methodCall (mkId now s.client.requestCounter) "app.stop"
        [Value.str appName]),
       Emit.sentFrame (OutFrame.methodCall (mkId now (s.client.requestCounter + 1)) "app.start"
        [Value.str appName])])) := by
  constructor
  · have hws1 : (call s now "vm.stop"
        (some [Value.num vmId, Value.obj [("force", Value.bool true)]])).1.client.ws =
        some ReadyState.opened := by
      rw [call_open s now "vm.stop"
        (some [Value.num vmId, Value.obj [("force", Value.bool true)]]) hws]
      exact hws
    have hctr1 : (call s now "vm.stop"
        (some [Value.num vmId, Value.obj [("force", Value.bool true)]])).1.client.requestCounter =
        s.client.requestCounter + 1 := by
      rw [call_open s now "vm.stop"
        (some [Value.num vmId, Value.obj [("force", Value.bool true)]]) hws]
    refine ⟨(call (call s now "vm.stop"
      (some [Value.num vmId, Value.obj [("force", Value.bool true)]])).1 now "vm.start"
      (some [Value.num vmId])).1, ?_⟩
    rw [show restartVMActions vmId =
      Action.sendCall "vm.stop" [Value.num vmId, Value.obj [("force", Value.bool true)]] ::
        Action.sleep 1000 :: Action.sendCall "vm.start" [Value.num vmId] :: [] from rfl]
    rw [runScript_sendCall_open now s "vm.stop"
      [Value.num vmId, Value.obj [("force", Value.bool true)]]
      (Action.sleep 1000 :: Action.sendCall "vm.start" [Value.num vmId] :: []) hws]
    rw [runScript_sleep]
    rw [runScript_sendCall_open now _ "vm.start" [Value.num vmId] [] hws1]
    rw [runScript_nil]
    rw [hctr1]
    rfl
  · have hws1 : (call s now "app.stop"
        (some [Value.str appName])).1.client.ws = some ReadyState.opened := by
      rw [call_open s now "app.stop" (some [Value.str appName]) hws]
      exact hws
    have hctr1 : (call s now "app.stop"
        (some [Value.str appName])).1.client.requestCounter =
        s.client.requestCounter + 1 := by
      rw [call_open s now "app.stop" (some [Value.str appName]) hws]
    refine ⟨(call (call s now "app.stop" (some [Value.str appName])).1 now "app.start"
      (some [Value.str appName])).1, ?_⟩
    rw [show restartAppActions appName =
      Action.sendCall "app.stop" [Value.str appName] ::
        Action.sendCall "app.start" [Value.str appName] :: [] from rfl]
    rw [runScript_sendCall_open now s "app.stop" [Value.str appName]
      (Action.sendCall "app.start" [Value.str appName] :: []) hws]
    rw [runScript_sendCall_open now _ "app.start" [Value.str appName] [] hws1]
    rw [runScript_nil]
    rw [hctr1]
    rfl

theorem restart_orders_stop_before_start_witness :
    (∃ s2, runScript 400 sEx (restartVMActions 3) = some (s2,
      [Emit.sentFrame (OutFrame.methodCall (mkId 400 sEx.client.requestCounter) "vm.stop"
        [Value.num 3, Value.obj [("force", Value.bool true)]]),
       Emit.slept 1000,
       Emit.sentFrame (OutFrame.methodCall (mkId 400 (sEx.client.requestCounter + 1)) "vm.start"
        [Value.num 3])])) ∧
    (∃ s3, runScript 400 sEx (restartAppActions "plex") = some (s3,
      [Emit.sentFrame (OutFrame.methodCall (mkId 400 sEx.client.requestCounter) "app.stop"
        [Value.str "plex"]),
       Emit.sentFrame (OutFrame.methodCall (mkId 400 (sEx.client.requestCounter + 1)) "app.start"
        [Value.str "plex"])])) :=
  restart_orders_stop_before_start sEx 3 "plex" 400 rfl

/-! ### Claim C10 -/

/-- C10: a direct `stopVM` with the options argument omitted issues
`vm.stop` with `force = false`, whereas `restartVM` always issues its
`vm.stop` with `force = true` — a restart is strictly more forceful than a
default stop. -/
theorem restart_forces_stop (s : Sys) (vmId : Int) (now : Nat)
    (hws : s.client.ws = some ReadyState.opened) :
    (∃ s2, runScript now s (stopVMActions vmId none) = some (s2,
      [Emit.sentFrame (OutFrame.methodCall (mkId now s.client.requestCounter) "vm.stop"
        [Value.num vmId, Value.obj [("force", Value.bool false)]])])) ∧
    (∃ s3 rest2, runScript now s (restartVMActions vmId) = some (s3,
      Emit.sentFrame (OutFrame.methodCall (mkId now s.client.requestCounter) "vm.stop"
        [Value.num vmId, Value.obj [("force", Value.bool true)]]) :: rest2)) := by
  constructor
  · refine ⟨(call s now "vm.stop"
      (some [Value.num vmId, Value.obj [("force", Value.bool false)]])).1, ?_⟩
    rw [show stopVMActions vmId none =
      Action.sendCall "vm.stop" [Value.num vmId, Value.obj [("force", Value.bool false)]] ::
        [] from rfl]
    rw [runScript_sendCall_open now s "vm.stop"
      [Value.num vmId, Value.obj [("force", Value.bool false)]] [] hws]
    rw [runScript_nil]
    rfl
  · have hws1 : (call s now "vm.stop"
        (some [Value.num vmId, Value.obj [("force", Value.bool true)]])).1.client.ws =
        some ReadyState.opened := by
      rw [call_open s now "vm.stop"
        (some [Value.num vmId, Value.obj [("force", Value.bool true)]]) hws]
      exact hws
    refine ⟨(call (call s now "vm.stop"
        (some [Value.num vmId, Value.obj [("force", Value.bool true)]])).1 now "vm.start"
        (some [Value.num vmId])).1,
      [Emit.slept 1000,
       Emit.sentFrame (OutFrame.methodCall
         (mkId now (call s now "vm.stop"
           (some [Value.num vmId,
             Value.obj [("force", Value.bool true)]])).1.client.requestCounter)
         "vm.start" [Value.num vmId])], ?_⟩
    rw [show restartVMActions vmId =
      Action.sendCall "vm.stop" [Value.num vmId, Value.obj [("force", Value.bool true)]] ::
        Action.sleep 1000 :: Action.sendCall "vm.start" [Value.num vmId] :: [] from rfl]
    rw [runScript_sendCall_open now s "vm.stop"
      [Value.num vmId, Value.obj [("force", Value.bool true)]]
      (Action.sleep 1000 :: Action.sendCall "vm.start" [Value.num vmId] :: []) hws]
    rw [runScript_sleep]
    rw [runScript_sendCall_open now _ "vm.start" [Value.num vmId] [] hws1]
    rw [runScript_nil]
    rfl

theorem restart_forces_stop_witness :
    (∃ s2, runScript 500 sEx (stopVMActions 3 none) = some (s2,
      [Emit.sentFrame (OutFrame.methodCall (mkId 500 sEx.client.requestCounter) "vm.stop"
        [Value.num 3, Value.obj [("force", Value.bool false)]])])) ∧
    (∃ s3 rest2, runScript 500 sEx (restartVMActions 3) = some (s3,
      Emit.sentFrame (OutFrame.methodCall (mkId 500 sEx.client.requestCounter) "vm.stop"
        [Value.num 3, Value.obj [("force", Value.bool true)]]) :: rest2)) :=
  restart_forces_stop sEx 3 500 rfl


/-! ### Claim C4 (code bug evidence)

`disconnect` (lines 361-369) sets the intentional flag, closes and nulls
the socket and clears `authenticated`, but never touches
`pendingRequests` and never invokes the stored reject callbacks; each
still-pending request is left to be rejected only when its own 30 s timer
fires.  `handleReconnect` (lines 127-142) also leaves the table intact, so
entries created on the prior session survive into the reconnected one. -/

/-- C4 evidence, evaluated at the failing input (a client with one pending
request): `disconnect` leaves the pending table and the settlement log
unchanged (no rejection happens at closure), the entry is still keyed in
the table afterwards, `handleReconnect` preserves it too, and even after a
full disconnect/connect/open/auth-success cycle the prior session's entry
is still in the table. -/
theorem disconnect_keeps_pending_evidence :
    (disconnect sEx).client.pendingRequests = sEx.client.pendingRequests ∧
    (disconnect sEx).settled = sEx.settled ∧
    pendingIds (disconnect sEx) = [mkId 100 0] ∧
    (handleReconnect (disconnect sEx)).client.pendingRequests =
      sEx.client.pendingRequests ∧
    (runTrace sEx [Event.disconnectCall, Event.connectStart, Event.socketOpen,
       Event.authSucceeded]).client.pendingRequests = sEx.client.pendingRequests :=
  ⟨rfl, rfl, rfl, rfl, rfl⟩

end Truenas
